import Mathlib

/-!
# Verification of the `dstate` state-tracking package of JantsoP/dutil

Shallow embedding of the state-tracking engine (`dstate` package): guild,
channel, member and presence state, the message window with its eviction
policies, the copy/patch primitives and the permission-resolution
algorithm, translated from the Go source.

The repository contains two generations of the package:
* `guildstate.go` / `state.go` use string entity ids and store raw
  `discordgo.Member` / `discordgo.Presence` records in `MemberState`
  (namespace `DstateA` below);
* `channelstate.go` / `memberstate.go` use int64 entity ids and a merged
  `MemberState` record (namespace `DstateB` below).

Go machine integers only occur here as permission bitmasks, which are
non-negative and only combined with `|`, `&` and `&^`-style masking,
so they are modelled as `Nat` (`|||`, `andNot` below); int64 ids, times and
durations are modelled as `Int`.  Go `nil` slices are `Option (List _)`
where the source distinguishes `nil` from empty.  Go maps are association
lists (`AList` below) with insert-replace semantics.
-/

namespace Dutil

/-! ## Association-list maps (model of Go maps) -/

/-- Model of a Go `map[κ]α`: an association list with at most one binding
per key (maintained by `mapInsert`/`mapErase`). -/
abbrev AList (κ α : Type) := List (κ × α)

namespace AList

variable {κ α : Type} [DecidableEq κ]

/-- Map lookup, `m[k]` with its `ok` flag folded into `Option`. -/
def mapGet : AList κ α → κ → Option α
  | [], _ => none
  | (k', v) :: rest, k => if k' = k then some v else mapGet rest k

/-- Map write `m[k] = v` (replaces any previous binding). -/
def mapInsert : AList κ α → κ → α → AList κ α
  | [], k, v => [(k, v)]
  | (k', v') :: rest, k, v =>
      if k' = k then (k, v) :: rest else (k', v') :: mapInsert rest k v

/-- Map deletion `delete(m, k)`. -/
def mapErase : AList κ α → κ → AList κ α
  | [], _ => []
  | (k', v') :: rest, k =>
      if k' = k then mapErase rest k else (k', v') :: mapErase rest k

end AList

export AList (mapGet mapInsert mapErase)

/-- Model of Go's bit-clear operator `x &^ y` (used as `x &= ^y` in
`MemberPermissions`): subtracting the common bits clears them.  Written
with `-` and `&&&` so that it evaluates by kernel reduction; it agrees
with `Nat.ldiff` (`andNot_eq_ldiff` below). -/
def andNot (x y : Nat) : Nat := x - (x &&& y)

/-! ## discordgo permission constants

Bit constants from the discordgo dependency (era of `guildstate.go`),
used by `MemberPermissions`. -/

namespace Discordgo

def PermissionReadMessages : Nat := 1 <<< 10
def PermissionSendMessages : Nat := 1 <<< 11
def PermissionSendTTSMessages : Nat := 1 <<< 12
def PermissionManageMessages : Nat := 1 <<< 13
def PermissionEmbedLinks : Nat := 1 <<< 14
def PermissionAttachFiles : Nat := 1 <<< 15
def PermissionReadMessageHistory : Nat := 1 <<< 16
def PermissionMentionEveryone : Nat := 1 <<< 17

def PermissionVoiceConnect : Nat := 1 <<< 20
def PermissionVoiceSpeak : Nat := 1 <<< 21
def PermissionVoiceMuteMembers : Nat := 1 <<< 22
def PermissionVoiceDeafenMembers : Nat := 1 <<< 23
def PermissionVoiceMoveMembers : Nat := 1 <<< 24
def PermissionVoiceUseVAD : Nat := 1 <<< 25

def PermissionManageRoles : Nat := 1 <<< 28

def PermissionCreateInstantInvite : Nat := 1 <<< 0
def PermissionKickMembers : Nat := 1 <<< 1
def PermissionBanMembers : Nat := 1 <<< 2
def PermissionAdministrator : Nat := 1 <<< 3
def PermissionManageChannels : Nat := 1 <<< 4
def PermissionManageServer : Nat := 1 <<< 5
def PermissionAddReactions : Nat := 1 <<< 6
def PermissionViewAuditLogs : Nat := 1 <<< 7

def PermissionAllText : Nat :=
  PermissionReadMessages |||
  PermissionSendMessages |||
  PermissionSendTTSMessages |||
  PermissionManageMessages |||
  PermissionEmbedLinks |||
  PermissionAttachFiles |||
  PermissionReadMessageHistory |||
  PermissionMentionEveryone

def PermissionAllVoice : Nat :=
  PermissionVoiceConnect |||
  PermissionVoiceSpeak |||
  PermissionVoiceMuteMembers |||
  PermissionVoiceDeafenMembers |||
  PermissionVoiceMoveMembers |||
  PermissionVoiceUseVAD

def PermissionAllChannel : Nat :=
  PermissionAllText |||
  PermissionAllVoice |||
  PermissionCreateInstantInvite |||
  PermissionManageRoles |||
  PermissionManageChannels |||
  PermissionAddReactions |||
  PermissionViewAuditLogs

def PermissionAll : Nat :=
  PermissionAllChannel |||
  PermissionKickMembers |||
  PermissionBanMembers |||
  PermissionManageServer |||
  PermissionAdministrator

/-- `discordgo.Status` is a string enum; only these two values are
consulted by the state tracker. -/
def StatusOffline : String := "offline"

def StatusOnline : String := "online"

end Discordgo

/-! ## Group A: the string-id generation (`guildstate.go`, `state.go`) -/

namespace DstateA

open Discordgo

/-- `discordgo.User` (fields used by this package). -/
structure User where
  ID : String
  Username : String
  deriving DecidableEq, Repr

/-- `discordgo.Member` (fields used by this package).  `Roles` is a Go
slice whose `nil`-ness is significant (`newMember.Roles != nil`), hence
`Option`. -/
structure Member where
  User : User
  Nick : String
  JoinedAt : String
  Roles : Option (List String)
  deriving DecidableEq, Repr

/-- `discordgo.Game` (opaque payload for this package). -/
structure Game where
  Name : String
  deriving DecidableEq, Repr

/-- `discordgo.Presence` (fields used by this package). -/
structure Presence where
  User : User
  Status : String
  Game : Option Game
  Roles : Option (List String)
  deriving DecidableEq, Repr

/-- `discordgo.Role` (fields used by this package). -/
structure Role where
  ID : String
  Permissions : Nat
  deriving DecidableEq, Repr

/-- `discordgo.PermissionOverwrite`. -/
structure PermissionOverwrite where
  ID : String
  «Type» : String
  Allow : Nat
  Deny : Nat
  deriving DecidableEq, Repr

/-- `discordgo.Channel` (fields used by this package).  The
permission-overwrite list's `nil`-ness is significant in
`ChannelState.Update`. -/
structure Channel where
  ID : String
  Name : String
  PermissionOverwrites : Option (List PermissionOverwrite)
  deriving DecidableEq, Repr

/-- `discordgo.Guild` (fields used by this package). -/
structure Guild where
  ID : String
  OwnerID : String
  Roles : List Role
  Channels : List Channel
  Members : List Member
  Presences : List Presence
  deriving DecidableEq, Repr

/-- `dstate.MemberState` of this generation (`state.go`): raw member and
presence records, each possibly absent. -/
structure MemberState where
  Member : Option Member
  Presence : Option Presence
  deriving DecidableEq, Repr

/-- `dstate.MessageState` of this generation (`state.go`); only the
fields needed to track a preserved message window. -/
structure MessageState where
  MessageID : String
  Deleted : Bool
  deriving DecidableEq, Repr

/-- `dstate.ChannelState` of this generation (`state.go`): the channel
snapshot plus its message window. -/
structure ChannelState where
  Channel : Channel
  Messages : List MessageState
  deriving DecidableEq, Repr

/-- `dstate.GuildState` (`guildstate.go`). -/
structure GuildState where
  Guild : Guild
  Members : AList String MemberState
  Channels : AList String ChannelState
  maxMessages : Int
  maxMessageDuration : Int
  removeDeletedMessages : Bool
  removeOfflineMembers : Bool
  deriving DecidableEq, Repr

/-- Error values `ErrMemberNotFound` / `ErrChannelNotFound`
(`guildstate.go`). -/
inductive PermError where
  | memberNotFound
  | channelNotFound
  deriving DecidableEq, Repr

/-!
The `lock bool` parameters of the Go methods only drive mutex
acquisition; in this pure model every operation is an atomic step on the
state value, so they are dropped throughout.
-/

/-- `GuildState.Member` (`guildstate.go`): map lookup, `nil` ↦ `none`. -/
def GuildState.Member (g : GuildState) (id : String) : Option MemberState :=
  mapGet g.Members id

/-- `GuildState.Channel` (`guildstate.go`): map lookup, `nil` ↦ `none`. -/
def GuildState.Channel (g : GuildState) (id : String) : Option ChannelState :=
  mapGet g.Channels id

/-- The everyone-role aggregation of `MemberPermissions`: the first role
whose id equals the guild id contributes its permissions (`break` after
the first hit). -/
def everyonePerms (g : GuildState) : Nat :=
  match g.Guild.Roles.find? (fun role => role.ID = g.Guild.ID) with
  | some role => role.Permissions
  | none => 0

/-- The role-permission aggregation of `MemberPermissions`: OR of the
permissions of every guild role held by the member (inner loop over the
member's role ids with `break` ≡ membership test), on top of the
everyone-role permissions. -/
def aggregatedRolePerms (g : GuildState) (mRoles : List String) : Nat :=
  g.Guild.Roles.foldl
    (fun acc role =>
      if mRoles.contains role.ID then acc ||| role.Permissions else acc)
    (everyonePerms g)

/-- The `@everyone` overwrite block of `MemberPermissions`: the first
overwrite whose id equals the guild id is applied (`break` after it),
`x &= ^y` rendered as `andNot x y`. -/
def everyoneOverwritePass (overwrites : List PermissionOverwrite)
    (guildID : String) (apermissions : Nat) : Nat :=
  match overwrites.find? (fun ow => guildID = ow.ID) with
  | some ow => (andNot apermissions ow.Deny) ||| ow.Allow
  | none => apermissions

/-- The accumulated role-overwrite loop of `MemberPermissions`: one pass
over the channel's overwrites, OR-ing together the deny bits and,
separately, the allow bits of every role overwrite matching a role held
by the member (the inner loop over the member's role ids with `break` is
a membership test).  Returns `(denies, allows)`. -/
def rolePassOverwrites (overwrites : List PermissionOverwrite)
    (mRoles : List String) : Nat × Nat :=
  overwrites.foldl
    (fun (acc : Nat × Nat) ow =>
      if ow.«Type» = "role" ∧ mRoles.contains ow.ID then
        (acc.1 ||| ow.Deny, acc.2 ||| ow.Allow)
      else acc)
    (0, 0)

/-- The member-specific overwrite block of `MemberPermissions`: the first
overwrite of type "member" whose id equals the member id is applied
(`break` after it). -/
def memberOverwritePass (overwrites : List PermissionOverwrite)
    (memberID : String) (apermissions : Nat) : Nat :=
  match overwrites.find? (fun ow => ow.«Type» = "member" ∧ ow.ID = memberID) with
  | some ow => (andNot apermissions ow.Deny) ||| ow.Allow
  | none => apermissions

/-- The final administrator re-check of `MemberPermissions`. -/
def adminChannelPass (apermissions : Nat) : Nat :=
  if apermissions &&& Discordgo.PermissionAdministrator
      = Discordgo.PermissionAdministrator then
    apermissions ||| Discordgo.PermissionAllChannel
  else apermissions

/-- `GuildState.MemberPermissions` (`guildstate.go` lines 415–497),
with `x &= ^y` rendered as `andNot x y` and `x |= y` as `x ||| y`.
The blocks of the Go function body are the stage functions above,
applied in source order. -/
def GuildState.MemberPermissions (g : GuildState) (channelID memberID : String) :
    Except PermError Nat :=
  if memberID = g.Guild.OwnerID then
    .ok Discordgo.PermissionAll
  else
    match (g.Member memberID).bind (fun mState => mState.Member) with
    | none => .error .memberNotFound
    | some member =>
      let mRoles := member.Roles.getD []
      let apermissions1 := aggregatedRolePerms g mRoles
      -- Administrator bypasses channel overrides
      if apermissions1 &&& Discordgo.PermissionAdministrator
          = Discordgo.PermissionAdministrator then
        .ok (apermissions1 ||| Discordgo.PermissionAll)
      else
        match g.Channel channelID with
        | none => .error .channelNotFound
        | some cState =>
          let overwrites := cState.Channel.PermissionOverwrites.getD []
          let apermissions2 := everyoneOverwritePass overwrites g.Guild.ID apermissions1
          -- Member overwrites can override role overrides, so do two passes
          let da := rolePassOverwrites overwrites mRoles
          let apermissions3 := (andNot apermissions2 da.1) ||| da.2
          let apermissions4 := memberOverwritePass overwrites memberID apermissions3
          .ok (adminChannelPass apermissions4)

/-- Concrete inputs for the role-overwrite scenario: member "m" of guild
"g" holds roles "r1" and "r2"; on channel "c" the "r1" overwrite denies
`PermissionReadMessages` (bit 10), the "r2" overwrite allows it, and a
member-specific overwrite for "m" denies it again. -/
def exOverwritesC1 : List PermissionOverwrite :=
  [ { ID := "r1", «Type» := "role", Allow := 0, Deny := 1024 },
    { ID := "r2", «Type» := "role", Allow := 1024, Deny := 0 },
    { ID := "m", «Type» := "member", Allow := 0, Deny := 1024 } ]

/-- The same channel without the member-specific overwrite. -/
def exOverwritesC1' : List PermissionOverwrite :=
  [ { ID := "r1", «Type» := "role", Allow := 0, Deny := 1024 },
    { ID := "r2", «Type» := "role", Allow := 1024, Deny := 0 } ]

/-- The member record of "m" in the C1 scenario. -/
def exMemberC1 : Member :=
  { User := { ID := "m", Username := "m" }, Nick := "", JoinedAt := "",
    Roles := some ["r1", "r2"] }

/-- The channel state of "c" with a given overwrite list. -/
def exCStateC1 (ows : List PermissionOverwrite) : ChannelState :=
  { Channel := { ID := "c", Name := "", PermissionOverwrites := some ows },
    Messages := [] }

/-- Guild state holding member "m" (roles "r1", "r2") and channel "c"
with the given overwrite list. -/
def exGuildC1 (ows : List PermissionOverwrite) : GuildState :=
  { Guild := { ID := "g", OwnerID := "o",
               Roles := [{ ID := "r1", Permissions := 0 },
                         { ID := "r2", Permissions := 0 }],
               Channels := [], Members := [], Presences := [] },
    Members := [("m", { Member := some exMemberC1, Presence := none })],
    Channels := [("c", exCStateC1 ows)],
    maxMessages := 0, maxMessageDuration := 0,
    removeDeletedMessages := false, removeOfflineMembers := false }

/-- `GuildState.MemberAddUpdate` (`guildstate.go` 181–209): create a
member entry, attach the member record to a presence-only entry, or
patch an existing record.  In the patch, `JoinedAt` and `Roles` are
guarded by non-emptiness / non-`nil`, while `Nick` and `User` are
overwritten unconditionally ("Seems to always be provided"). -/
def GuildState.MemberAddUpdate (g : GuildState) (newMember : DstateA.Member) : GuildState :=
  match mapGet g.Members newMember.User.ID with
  | some existing =>
    match existing.Member with
    | none =>
        let ms := { existing with Member := some newMember }
        { g with Members := mapInsert g.Members newMember.User.ID ms }
    | some old =>
        -- Patch
        let patched : DstateA.Member :=
          { JoinedAt := if newMember.JoinedAt ≠ "" then newMember.JoinedAt
                        else old.JoinedAt,
            Roles := if newMember.Roles ≠ none then newMember.Roles
                     else old.Roles,
            -- Seems to always be provided
            Nick := newMember.Nick,
            User := newMember.User }
        let ms := { existing with Member := some patched }
        { g with Members := mapInsert g.Members newMember.User.ID ms }
  | none =>
      let ms : MemberState := { Member := some newMember, Presence := none }
      { g with Members := mapInsert g.Members newMember.User.ID ms }

/-- `GuildState.MemberRemove` (`guildstate.go` 211–218). -/
def GuildState.MemberRemove (g : GuildState) (id : String) : GuildState :=
  { g with Members := mapErase g.Members id }

/-- `copyPresence` (`guildstate.go` 264–283): a pointer-deep copy
(fresh `Game`, `User` and role-slice allocations); on values it
preserves each field. -/
def copyPresence (p : Presence) : Presence :=
  { User := p.User, Status := p.Status, Game := p.Game,
    Roles := match p.Roles with | none => none | some rs => some rs }

/-- A scheduled `time.AfterFunc` request: the delay and the user id
whose presence the deferred callback will re-check. -/
structure TimerReq where
  delay : Int
  userID : String
  deriving DecidableEq, Repr

/-- `time.Minute` in nanoseconds. -/
def timeMinute : Int := 60000000000

/-- `GuildState.PresenceAddUpdate` (`guildstate.go` 221–262).  The
returned option is the `time.AfterFunc` registration the call schedules
(delay and closed-over user id), if any: scheduled exactly when the new
status is offline and the offline-eviction policy is enabled.  In the
patch, `Game` is overwritten unconditionally and `Status` only when
non-empty. -/
def GuildState.PresenceAddUpdate (g : GuildState) (newPresence : Presence) :
    GuildState × Option TimerReq :=
  let g1 :=
    match mapGet g.Members newPresence.User.ID with
    | some existing =>
      match existing.Presence with
      | none =>
          let ms := { existing with Presence := some (copyPresence newPresence) }
          { g with Members := mapInsert g.Members newPresence.User.ID ms }
      | some oldP =>
          -- Patch.  Nil games indicates them not playing anything, so
          -- this had to always be provided?
          let patched : Presence :=
            { oldP with
              Game := newPresence.Game,
              Status := if newPresence.Status ≠ "" then newPresence.Status
                        else oldP.Status }
          let ms := { existing with Presence := some patched }
          { g with Members := mapInsert g.Members newPresence.User.ID ms }
    | none =>
        let ms : MemberState :=
          { Member := none, Presence := some (copyPresence newPresence) }
        { g with Members := mapInsert g.Members newPresence.User.ID ms }
  let timer :=
    if newPresence.Status = Discordgo.StatusOffline ∧ g.removeOfflineMembers then
      some { delay := timeMinute, userID := newPresence.User.ID }
    else none
  (g1, timer)

/-- Body of the `time.AfterFunc` callback scheduled by
`PresenceAddUpdate` (`guildstate.go` 250–260): at fire time it
re-acquires the guild lock (atomicity of this step in the model) and
removes the member only if it still exists and its presence is absent or
still offline. -/
def GuildState.offlineCheck (g : GuildState) (userID : String) : GuildState :=
  match g.Member userID with
  | none => g
  | some member =>
    match member.Presence with
    | none => g.MemberRemove userID
    | some pr =>
        if pr.Status = Discordgo.StatusOffline then g.MemberRemove userID
        else g

/-- `ChannelState.Update` (`channelstate.go` 123–146, string-id
generation): when the incoming snapshot omits (`nil`) the
permission-overwrite list it is kept from the old snapshot; then the
snapshot is replaced wholesale.  (The group-DM recipient branch does not
apply to guild channels.) -/
def ChannelState.Update (c : ChannelState) (newChannel : DstateA.Channel) : ChannelState :=
  let newChannel :=
    if newChannel.PermissionOverwrites = none then
      { newChannel with PermissionOverwrites := c.Channel.PermissionOverwrites }
    else newChannel
  { c with Channel := newChannel }

/-- `NewChannelState` (`channelstate.go` 26–51): a fresh channel state
holding a copy of the channel snapshot and no messages. -/
def NewChannelState (channel : DstateA.Channel) : ChannelState :=
  { Channel := channel, Messages := [] }

/-- `GuildState.ChannelAddUpdate` (`guildstate.go` 295–313): patch an
existing channel or create and register a fresh one; also returns the
resulting channel state (the Go function returns the pointer so the
caller can register it in the global index). -/
def GuildState.ChannelAddUpdate (g : GuildState) (newChannel : DstateA.Channel) :
    GuildState × ChannelState :=
  match mapGet g.Channels newChannel.ID with
  | some existing =>
      -- Patch
      let updated := existing.Update newChannel
      ({ g with Channels := mapInsert g.Channels newChannel.ID updated }, updated)
  | none =>
      let state := NewChannelState newChannel
      ({ g with Channels := mapInsert g.Channels newChannel.ID state }, state)

/-- `dstate.State` (`state.go`): the global registry.  Only the fields
read by the operations modelled here are included. -/
structure State where
  Guilds : AList String GuildState
  channels : AList String ChannelState
  MaxChannelMessages : Int
  MaxMessageAge : Int
  RemoveDeletedMessages : Bool
  RemoveOfflineMembers : Bool
  deriving DecidableEq, Repr

/-- The construction head of `NewGuildState` (`guildstate.go` 35–49):
empty maps, settings copied from the passed `State` when present. -/
def newGuildStateBase (guild : Guild) (state : Option State) : GuildState :=
  let base : GuildState :=
    { Guild := guild, Members := [], Channels := [],
      maxMessages := 0, maxMessageDuration := 0,
      removeDeletedMessages := false, removeOfflineMembers := false }
  match state with
  | some s =>
      { base with
        maxMessages := s.MaxChannelMessages,
        maxMessageDuration := s.MaxMessageAge,
        removeDeletedMessages := s.RemoveDeletedMessages,
        removeOfflineMembers := s.RemoveOfflineMembers }
  | none => base

/-- `NewGuildState` (`guildstate.go` 35–64): build a guild state from a
snapshot, copying the eviction settings from the passed `State` (if
any), then feeding the snapshot's channel, member and presence lists
through the respective add-or-update operations.  (The presence timers
scheduled during construction are irrelevant here and dropped.) -/
def NewGuildState (guild : Guild) (state : Option State) : GuildState :=
  let guildState := newGuildStateBase guild state
  let guildState := guild.Channels.foldl
    (fun gs c => (gs.ChannelAddUpdate c).1) guildState
  let guildState := guild.Members.foldl
    (fun gs m => gs.MemberAddUpdate m) guildState
  let guildState := guild.Presences.foldl
    (fun gs p => (gs.PresenceAddUpdate p).1) guildState
  guildState

/-- `State.GuildCreate` (`state.go` 143–182): if the guild already
exists, extract its channels' message windows keyed by channel id and
delete the old channel ids from the global index; construct the new
guild state fresh from the snapshot; reattach each preserved window to
the newly constructed channel of the same id; register every channel of
the new guild in the global index; install the guild. -/
def State.GuildCreate (s : State) (g : Guild) : State :=
  -- Preserve messages in the state and purge existing global channel
  -- map entries if this guild was already in the state.
  let pr : AList String (List MessageState) × List String :=
    match mapGet s.Guilds g.ID with
    | some existing =>
        (existing.Channels.map (fun kv => (kv.2.Channel.ID, kv.2.Messages)),
         existing.Channels.map (fun kv => kv.2.Channel.ID))
    | none => ([], [])
  let preservedMessages := pr.1
  let toRemove := pr.2
  let schannels := toRemove.foldl (fun m cID => mapErase m cID) s.channels
  let guildState := NewGuildState g (some s)
  let guildState :=
    { guildState with
      Channels := guildState.Channels.map (fun kv =>
        match mapGet preservedMessages kv.2.Channel.ID with
        | some preserved => (kv.1, { kv.2 with Messages := preserved })
        | none => kv) }
  let schannels := guildState.Channels.foldl
    (fun m kv => mapInsert m kv.1 kv.2) schannels
  { s with channels := schannels,
           Guilds := mapInsert s.Guilds g.ID guildState }

/-- Existing member record with a nickname, joined-at and roles. -/
def exOldMemberC6 : Member :=
  { User := { ID := "m", Username := "u0" }, Nick := "nicky",
    JoinedAt := "J0", Roles := some ["r0"] }

/-- A partial member update carrying only the user: empty nick, empty
joined-at, nil roles. -/
def exIncomingC6 : Member :=
  { User := { ID := "m", Username := "u0" }, Nick := "",
    JoinedAt := "", Roles := none }

/-- Guild holding the member "m" with the record above. -/
def exGuildC6 : GuildState :=
  { Guild := { ID := "g6", OwnerID := "o", Roles := [], Channels := [],
               Members := [], Presences := [] },
    Members := [("m", { Member := some exOldMemberC6, Presence := none })],
    Channels := [],
    maxMessages := 0, maxMessageDuration := 0,
    removeDeletedMessages := false, removeOfflineMembers := false }

/-- What the patch leaves behind: joined-at and roles kept (guarded),
nick cleared to the incoming empty string. -/
def exPatchedC6 : Member :=
  { User := { ID := "m", Username := "u0" }, Nick := "",
    JoinedAt := "J0", Roles := some ["r0"] }

/-- Message-state with a given id (C9 scenario). -/
def exMsgA (i : String) : MessageState := { MessageID := i, Deleted := false }

/-- Bare channel snapshot with a given id (C9 scenario). -/
def exChan (cid : String) : Channel :=
  { ID := cid, Name := "", PermissionOverwrites := none }

/-- The old guild "G" holding channels "c1" (one cached message) and
"c2" (one cached message). -/
def exOldGuildC9 : GuildState :=
  { Guild := { ID := "G", OwnerID := "o", Roles := [], Channels := [],
               Members := [], Presences := [] },
    Members := [],
    Channels := [("c1", { Channel := exChan "c1", Messages := [exMsgA "m1"] }),
                 ("c2", { Channel := exChan "c2", Messages := [exMsgA "m2"] })],
    maxMessages := 0, maxMessageDuration := 0,
    removeDeletedMessages := false, removeOfflineMembers := false }

/-- Global state already holding guild "G" and its channels in the
global index. -/
def exStateC9 : State :=
  { Guilds := [("G", exOldGuildC9)],
    channels := [("c1", { Channel := exChan "c1", Messages := [exMsgA "m1"] }),
                 ("c2", { Channel := exChan "c2", Messages := [exMsgA "m2"] })],
    MaxChannelMessages := 0, MaxMessageAge := 0,
    RemoveDeletedMessages := false, RemoveOfflineMembers := false }

/-- A fresh snapshot of guild "G" where channel "c2" is gone and "c3" is
new. -/
def exNewSnapshotC9 : Guild :=
  { ID := "G", OwnerID := "o", Roles := [],
    Channels := [exChan "c1", exChan "c3"], Members := [], Presences := [] }

/-- Guild with the offline-eviction policy enabled and no members yet. -/
def exGuildC10 : GuildState :=
  { Guild := { ID := "g10", OwnerID := "o", Roles := [], Channels := [],
               Members := [], Presences := [] },
    Members := [], Channels := [],
    maxMessages := 0, maxMessageDuration := 0,
    removeDeletedMessages := false, removeOfflineMembers := true }

/-- An offline presence for user "u". -/
def exPresOff : Presence :=
  { User := { ID := "u", Username := "u" }, Status := "offline",
    Game := none, Roles := none }

/-- An online presence for user "u". -/
def exPresOn : Presence :=
  { User := { ID := "u", Username := "u" }, Status := "online",
    Game := none, Roles := none }

/-- Member record of "m" holding the administrator role "radm". -/
def exMemberC3 : Member :=
  { User := { ID := "m", Username := "m" }, Nick := "", JoinedAt := "",
    Roles := some ["radm"] }

/-- Guild with an administrator role held by member "m" and no channels
(so every channel id is unknown). -/
def exGuildC3 : GuildState :=
  { Guild := { ID := "g3", OwnerID := "o",
               Roles := [{ ID := "radm",
                           Permissions := Discordgo.PermissionAdministrator }],
               Channels := [], Members := [], Presences := [] },
    Members := [("m", { Member := some exMemberC3, Presence := none })],
    Channels := [],
    maxMessages := 0, maxMessageDuration := 0,
    removeDeletedMessages := false, removeOfflineMembers := false }

end DstateA

/-! ## Group B: the int64-id generation (`channelstate.go`, `memberstate.go`) -/

namespace DstateB

/-- `discordgo.User` (jonas747 fork, int64 ids; fields used here). -/
structure User where
  ID : Int
  Username : String
  Avatar : String
  Discriminator : String
  Bot : Bool
  deriving DecidableEq, Repr

/-- `discordgo.Game` (opaque payload for this package). -/
structure Game where
  Name : String
  deriving DecidableEq, Repr

/-- `discordgo.MessageEmbed` (opaque payload). -/
structure MessageEmbed where
  Title : String
  Description : String
  deriving DecidableEq, Repr

/-- `discordgo.MessageAttachment` (opaque payload). -/
structure MessageAttachment where
  ID : Int
  URL : String
  deriving DecidableEq, Repr

/-- `discordgo.MessageReactions` (opaque payload). -/
structure MessageReactions where
  Count : Int
  deriving DecidableEq, Repr

/-- `discordgo.Message` (fields used by `MessageState`).  Slices whose
`nil`-ness gates the patch are `Option`; `Timestamp` and
`EditedTimestamp` are the raw `discordgo.Timestamp` strings. -/
structure Message where
  ID : Int
  Content : String
  Timestamp : String
  EditedTimestamp : String
  Mentions : Option (List User)
  Embeds : Option (List MessageEmbed)
  Attachments : Option (List MessageAttachment)
  MentionRoles : Option (List Int)
  Reactions : Option (List MessageReactions)
  Author : Option User
  deriving DecidableEq, Repr

/-- Zero value of `discordgo.Message` (Go zero struct). -/
def defaultMessage : Message :=
  { ID := 0, Content := "", Timestamp := "", EditedTimestamp := "",
    Mentions := none, Embeds := none, Attachments := none,
    MentionRoles := none, Reactions := none, Author := none }

/-- `dstate.MessageState` (`channelstate.go` 247–258).  The two cached
times are parsed `time.Time` values, modelled as `Int` with `0` for Go's
zero time (`IsZero`). -/
structure MessageState where
  Message : Message
  Deleted : Bool
  ParsedCreated : Int
  ParsedEdited : Int
  deriving DecidableEq, Repr

/-- Zero value of `MessageState`. -/
def defaultMessageState : MessageState :=
  { Message := defaultMessage, Deleted := false,
    ParsedCreated := 0, ParsedEdited := 0 }

/-- `MessageState.ParseTimes` (`channelstate.go` 260–273), parameterised
by the timestamp parser of the discordgo dependency
(`Timestamp.Parse`); a parse failure yields Go's zero time (`0` here)
with the error discarded, which the parameter already reflects. -/
def MessageState.ParseTimes (parse : String → Int) (m : MessageState) :
    MessageState :=
  { m with
    ParsedCreated := if m.Message.Timestamp ≠ "" then
      parse m.Message.Timestamp else m.ParsedCreated,
    ParsedEdited := if m.Message.EditedTimestamp ≠ "" then
      parse m.Message.EditedTimestamp else m.ParsedEdited }

/-- `MessageState.Update` (`channelstate.go` 306–330): patch only the
fields present/non-empty in the incoming message, then re-derive the
cached timestamps. -/
def MessageState.Update (parse : String → Int) (m : MessageState)
    (msg : DstateB.Message) : MessageState :=
  MessageState.ParseTimes parse
    { m with Message :=
      { m.Message with
        Content := if msg.Content ≠ "" then msg.Content
                   else m.Message.Content,
        EditedTimestamp := if msg.EditedTimestamp ≠ "" then
                             msg.EditedTimestamp
                           else m.Message.EditedTimestamp,
        Mentions := if msg.Mentions ≠ none then msg.Mentions
                    else m.Message.Mentions,
        Embeds := if msg.Embeds ≠ none then msg.Embeds
                  else m.Message.Embeds,
        Attachments := if msg.Attachments ≠ none then msg.Attachments
                       else m.Message.Attachments,
        Timestamp := if msg.Timestamp ≠ "" then msg.Timestamp
                     else m.Message.Timestamp,
        Author := if msg.Author ≠ none then msg.Author
                  else m.Message.Author } }

/-- The in-place patch of the message found by `c.Message(false, msg.ID)`
in `MessageAddUpdate`: the first entry with the matching id is updated,
the rest of the window is untouched. -/
def updateFirstMessage (parse : String → Int) :
    List MessageState → Message → List MessageState
  | [], _ => []
  | m :: rest, msg =>
      if m.Message.ID = msg.ID then m.Update parse msg :: rest
      else m :: updateFirstMessage parse rest msg

/-- The `maxMsgs` half of `UpdateMessages` (`channelstate.go` 200–202):
keep the last `maxMsgs` entries; `-1` means unbounded. -/
def countTrim (msgs : List MessageState) (maxMsgs : Int) : List MessageState :=
  if (msgs.length : Int) > maxMsgs ∧ maxMsgs ≠ -1 then
    msgs.drop ((msgs.length : Int) - maxMsgs).toNat
  else msgs

/-- The age loop of `UpdateMessages` (`channelstate.go` 209–224):
`i` counts down from the window length; entries with a zero cached
created-time are skipped (`continue`); at the first (newest-side) entry
older than `now - maxAge` the window is truncated to start at that entry
(`c.Messages = c.Messages[i:]; break`). -/
def ageScan (now maxAge : Int) (msgs : List MessageState) :
    Nat → List MessageState
  | 0 => msgs
  | i + 1 =>
      let m := msgs.getD i defaultMessageState
      if m.ParsedCreated ≠ 0 ∧ now - m.ParsedCreated > maxAge then
        -- All messages before this are old as well
        msgs.drop i
      else ageScan now maxAge msgs i

/-- `ChannelState.UpdateMessages` (`channelstate.go` 193–225), with
`time.Now()` passed in as `now`.  Only `c.Messages` is read or written,
so the window list stands in for the channel state. -/
def UpdateMessages (now : Int) (msgs : List MessageState)
    (maxMsgs maxAge : Int) : List MessageState :=
  let msgs := countTrim msgs maxMsgs
  -- Check age
  if maxAge = 0 then msgs
  else ageScan now maxAge msgs msgs.length

/-- `ChannelState.MessageAddUpdate` (`channelstate.go` 165–191): patch
in place when the id is already cached, otherwise append a copy with
freshly parsed timestamps; the deferred `UpdateMessages` runs at exit
either way. -/
def MessageAddUpdate (parse : String → Int) (now : Int)
    (msgs : List MessageState) (msg : Message)
    (maxMessages maxMessageAge : Int) : List MessageState :=
  let msgs' :=
    match msgs.find? (fun m => m.Message.ID = msg.ID) with
    | some _ => updateFirstMessage parse msgs msg
    | none =>
        let ms : MessageState :=
          { Message := msg, Deleted := false,
            ParsedCreated := 0, ParsedEdited := 0 }
        msgs ++ [ms.ParseTimes parse]
  UpdateMessages now msgs' maxMessages maxMessageAge

/-- A whole sequence of add-or-update operations on one channel's
window, with age eviction disabled (`maxAge = 0`). -/
def runWindow (parse : String → Int) (now : Int) (ops : List Message)
    (N : Int) : List MessageState :=
  ops.foldl (fun w msg => MessageAddUpdate parse now w msg N 0) []

/-! Spec-side (id-level) description of the window, used to state C4. -/

/-- One id-level step of the amended window spec: an id already in the
window is patched in place (recency *not* refreshed); a new id is
appended and the oldest entries are evicted down to `N` (`-1`
unbounded). -/
def specWindowStep (N : Int) (L : List Int) (x : Int) : List Int :=
  if x ∈ L then L
  else if N = -1 then L ++ [x]
  else (L ++ [x]).drop ((L ++ [x]).length - N.toNat)

/-- Id-level window contents after a sequence of operations (amended
C4): the at-most-`N` most recently *inserted* ids. -/
def specWindowIds (ops : List Int) (N : Int) : List Int :=
  ops.foldl (specWindowStep N) []

/-- Ids ordered by most recent *touch* (insert or update): each
operation moves its id to the tail.  This is the literal reading of the
claim's "most-recently-inserted-or-updated". -/
def lastTouchedOrder (ops : List Int) : List Int :=
  ops.foldl (fun L x => (L.filter (fun y => y ≠ x)) ++ [x]) []

/-- The claim's literal window prediction: the `N` most recently
touched ids. -/
def specWindowIdsTouched (ops : List Int) (N : Int) : List Int :=
  if N = -1 then lastTouchedOrder ops
  else (lastTouchedOrder ops).drop
    ((lastTouchedOrder ops).length - N.toNat)

/-- The age criterion of the eviction scan (C5): a parsed (non-zero)
cached created-time older than `now - maxAge`. -/
def tooOld (now maxAge : Int) (m : MessageState) : Prop :=
  m.ParsedCreated ≠ 0 ∧ now - m.ParsedCreated > maxAge

instance (now maxAge : Int) (m : MessageState) :
    Decidable (tooOld now maxAge m) := by
  unfold tooOld
  infer_instance

/-- A message with a given id and otherwise zero fields. -/
def exMsgB (i : Int) : Message := { defaultMessage with ID := i }

/-- The C4 counterexample operation sequence: insert 1, insert 2,
update 1, insert 3. -/
def exOpsC4 : List Message := [exMsgB 1, exMsgB 2, exMsgB 1, exMsgB 3]

/-- A message state with the given id and cached created-time. -/
def exMsgStateC5 (i : Int) (t : Int) : MessageState :=
  { Message := exMsgB i, Deleted := false, ParsedCreated := t,
    ParsedEdited := 0 }

/-! ### `memberstate.go` -/

/-- `discordgo.Member` (jonas747 fork; fields used here). -/
structure Member where
  User : User
  Nick : String
  JoinedAt : String
  Roles : Option (List Int)
  deriving DecidableEq, Repr

/-- `discordgo.Presence` (jonas747 fork; carries a nick). -/
structure Presence where
  User : User
  Status : String
  Nick : String
  Game : Option Game
  deriving DecidableEq, Repr

/-- `dstate.MemberState` (`memberstate.go` 11–48).  `JoinedAt` is the
parsed `time.Time` (as `Int`, `0` = zero time).  `Avatar` holds the hex
string after the `a_` strip; the `[16]byte` hex decode is elided since
nothing in the tracker reads the bytes back. -/
structure MemberState where
  ID : Int
  MemberSet : Bool
  JoinedAt : Int
  Nick : String
  Roles : List Int
  PresenceSet : Bool
  PresenceStatus : String
  PresenceGame : Option Game
  Username : String
  Avatar : String
  AnimatedAvatar : Bool
  Discriminator : Int
  Bot : Bool
  deriving DecidableEq, Repr

/-- `strconv.ParseInt(s, 10, 32)` with the error discarded: `0` when the
string does not parse (the bit-size clamp is irrelevant here). -/
def parseInt32 (s : String) : Int := (s.toInt?).getD 0

/-- The avatar-hash strip of `parseAvatar` (`memberstate.go` 100–109):
drop a leading "a_". -/
def stripAvatar (s : String) : String :=
  if s.startsWith "a_" then s.drop 2 else s

/-- Whether the avatar hash marks an animated avatar (`a_` prefix). -/
def avatarAnimated (s : String) : Bool := s.startsWith "a_"

/-- `MemberState.parseAvatar` (`memberstate.go` 100–109): strip a
leading "a_" (animated avatar) and record the hex payload. -/
def MemberState.parseAvatar (m : MemberState) (str : String) : MemberState :=
  { m with Avatar := stripAvatar str, AnimatedAvatar := avatarAnimated str }

/-- `MemberState.UpdateMember` (`memberstate.go` 55–75), parameterised
by the `time.Parse` of the joined-at format: `JoinedAt` and `Roles` are
guarded, `Nick` ("Seems to always be provided"), `Username`, avatar and
discriminator are overwritten unconditionally, and the membership flag
is set. -/
def MemberState.UpdateMember (parseJoined : String → Int)
    (m : MemberState) (member : Member) : MemberState :=
  { m with
    -- Patch
    JoinedAt := if member.JoinedAt ≠ "" then parseJoined member.JoinedAt
                else m.JoinedAt,
    Roles := match member.Roles with
             | some rs => rs
             | none => m.Roles,
    -- Seems to always be provided
    Nick := member.Nick,
    Username := member.User.Username,
    Avatar := stripAvatar member.User.Avatar,
    AnimatedAvatar := avatarAnimated member.User.Avatar,
    Discriminator := parseInt32 member.User.Discriminator,
    MemberSet := true }

/-- `MemberState.UpdatePresence` (`memberstate.go` 77–98): presence
status/game always set; the nick only while membership has never been
observed; username, discriminator and avatar whenever non-empty in the
payload (regardless of membership). -/
def MemberState.UpdatePresence (m : MemberState) (presence : Presence) :
    MemberState :=
  { m with
    PresenceSet := true,
    PresenceStatus := presence.Status,
    PresenceGame := presence.Game,
    Nick := if ¬ m.MemberSet then presence.Nick else m.Nick,
    Username := if presence.User.Username ≠ "" then presence.User.Username
                else m.Username,
    Discriminator := if presence.User.Discriminator ≠ "" then
                       parseInt32 presence.User.Discriminator
                     else m.Discriminator,
    Avatar := if presence.User.Avatar ≠ "" then
                stripAvatar presence.User.Avatar
              else m.Avatar,
    AnimatedAvatar := if presence.User.Avatar ≠ "" then
                        avatarAnimated presence.User.Avatar
                      else m.AnimatedAvatar }

/-- A member state that has observed membership: username "alice", no
nick. -/
def exMemberStateC8 : MemberState :=
  { ID := 7, MemberSet := true, JoinedAt := 0, Nick := "nick0",
    Roles := [], PresenceSet := false, PresenceStatus := "",
    PresenceGame := none, Username := "alice", Avatar := "",
    AnimatedAvatar := false, Discriminator := 1, Bot := false }

/-- A presence for the same user carrying username "bob" and nick
"bobnick". -/
def exPresenceC8 : Presence :=
  { User := { ID := 7, Username := "bob", Avatar := "",
              Discriminator := "", Bot := false },
    Status := "online", Nick := "bobnick", Game := none }

/-! ### Pointer model for `copyChannel` (`channelstate.go` 105–121)

Whether the "deep" copy is mutation-safe is a question about pointer
aliasing, so the overwrite allocations are modelled as an explicit heap:
a pointer is an index into the allocation list. -/

/-- `discordgo.PermissionOverwrite` (jonas747 fork). -/
structure PermissionOverwrite where
  ID : Int
  «Type» : String
  Allow : Int
  Deny : Int
  deriving DecidableEq, Repr

/-- Zero value of `PermissionOverwrite`. -/
def defaultOverwrite : PermissionOverwrite :=
  { ID := 0, «Type» := "", Allow := 0, Deny := 0 }

/-- The allocation heap for permission overwrites. -/
abbrev OverwriteHeap := List PermissionOverwrite

/-- `new(discordgo.PermissionOverwrite)` followed by `*p = v`: returns
the extended heap and the fresh pointer. -/
def alloc (h : OverwriteHeap) (v : PermissionOverwrite) :
    OverwriteHeap × Nat :=
  (h ++ [v], h.length)

/-- Pointer dereference `*p`. -/
def readOw (h : OverwriteHeap) (p : Nat) : PermissionOverwrite :=
  h.getD p defaultOverwrite

/-- Pointer store `*p = v` (a caller mutating an overwrite it reached
through some channel's overwrite list). -/
def writeOw (h : OverwriteHeap) (p : Nat) (v : PermissionOverwrite) :
    OverwriteHeap :=
  h.set p v

/-- `discordgo.Channel` for the copy model: scalar fields by value, the
overwrite and message lists as pointer lists. -/
structure Channel where
  ID : Int
  Name : String
  PermissionOverwrites : List Nat
  Messages : List Nat
  deriving DecidableEq, Repr

/-- `copyChannel` (`channelstate.go` 105–121): `*cCopy = *in`, then
`Messages` and `PermissionOverwrites` are nil'ed; when `deep`, the loop
allocates a fresh copy `powCopy` of each overwrite (`powCopy := new(…);
*powCopy = *pow`) but then appends the ORIGINAL pointer —
`cCopy.PermissionOverwrites = append(cCopy.PermissionOverwrites, pow)` —
so the freshly allocated copies leak unused and the "deep" copy's
overwrite list aliases the source's overwrites. -/
def copyChannel (h : OverwriteHeap) (c : Channel) (deep : Bool) :
    OverwriteHeap × Channel :=
  let cCopy := { c with Messages := [], PermissionOverwrites := [] }
  if deep then
    let hr := c.PermissionOverwrites.foldl
      (fun (acc : OverwriteHeap × List Nat) pow =>
        let h1 := (alloc acc.1 (readOw acc.1 pow)).1
        (h1, acc.2 ++ [pow]))
      (h, [])
    (hr.1, { cCopy with PermissionOverwrites := hr.2 })
  else
    (h, cCopy)

/-- A one-overwrite heap for the C7 run. -/
def exHeapC7 : OverwriteHeap :=
  [{ ID := 5, «Type» := "role", Allow := 0, Deny := 0 }]

/-- A channel whose overwrite list holds the single pointer `0`. -/
def exChanC7 : Channel :=
  { ID := 1, Name := "general", PermissionOverwrites := [0], Messages := [] }

/-- The mutation a caller applies to the copy's first overwrite. -/
def exOwMutC7 : PermissionOverwrite :=
  { ID := 5, «Type» := "role", Allow := 0, Deny := 1024 }

end DstateB

/-- `Except` equality is decidable componentwise (needed to `decide`
concrete runs of `MemberPermissions`). -/
instance {ε α : Type} [DecidableEq ε] [DecidableEq α] :
    DecidableEq (Except ε α) := fun x y =>
  match x, y with
  | .ok a, .ok b =>
      if h : a = b then isTrue (by rw [h]) else isFalse (by simp [h])
  | .error a, .error b =>
      if h : a = b then isTrue (by rw [h]) else isFalse (by simp [h])
  | .ok _, .error _ => isFalse (by simp)
  | .error _, .ok _ => isFalse (by simp)

/-! ## Lemmas and theorems -/

theorem land_add_ldiff (x y : Nat) : (x &&& y) + Nat.ldiff x y = x := by
  induction x using Nat.binaryRec generalizing y with
  | z => simp [Nat.ldiff, Nat.bitwise_zero_left, Nat.zero_and]
  | f a m ih =>
    induction y using Nat.bitCasesOn with | _ b n => ?_
    rw [Nat.land_bit, Nat.ldiff_bit, Nat.bit_val, Nat.bit_val, Nat.bit_val]
    have hmn := ih n
    cases a <;> cases b <;> simp only [Bool.and_true, Bool.and_false, Bool.not_true,
      Bool.not_false, Bool.toNat_true, Bool.toNat_false] <;> omega

theorem andNot_eq_ldiff (x y : Nat) : andNot x y = Nat.ldiff x y := by
  have h := land_add_ldiff x y
  unfold andNot
  omega

theorem testBit_andNot (x y : Nat) (k : Nat) :
    (andNot x y).testBit k = (x.testBit k && !(y.testBit k)) := by
  rw [andNot_eq_ldiff, Nat.testBit_ldiff]

namespace AList

variable {κ α : Type} [DecidableEq κ]

theorem mapGet_mapInsert_self (m : AList κ α) (k : κ) (v : α) :
    mapGet (mapInsert m k v) k = some v := by
  induction m with
  | nil => simp [mapGet, mapInsert]
  | cons p rest ih =>
    obtain ⟨k', v'⟩ := p
    by_cases hp : k' = k
    · simp [mapGet, mapInsert, hp]
    · simp [mapGet, mapInsert, hp, ih]

theorem mapGet_mapInsert_ne (m : AList κ α) (k k' : κ) (v : α) (h : k' ≠ k) :
    mapGet (mapInsert m k v) k' = mapGet m k' := by
  induction m with
  | nil => simp [mapGet, mapInsert, Ne.symm h]
  | cons p rest ih =>
    obtain ⟨k₀, v₀⟩ := p
    by_cases hp : k₀ = k
    · subst hp
      simp [mapGet, mapInsert, Ne.symm h]
    · by_cases hp' : k₀ = k'
      · simp [mapGet, mapInsert, hp, hp', h]
      · simp [mapGet, mapInsert, hp, hp', ih]

theorem mapGet_mapErase_self (m : AList κ α) (k : κ) :
    mapGet (mapErase m k) k = none := by
  induction m with
  | nil => simp [mapGet, mapErase]
  | cons p rest ih =>
    obtain ⟨k₀, v₀⟩ := p
    by_cases hp : k₀ = k
    · simp [mapGet, mapErase, hp, ih]
    · simp [mapGet, mapErase, hp, ih]

theorem mapGet_mapErase_ne (m : AList κ α) (k k' : κ) (h : k' ≠ k) :
    mapGet (mapErase m k) k' = mapGet m k' := by
  induction m with
  | nil => simp [mapGet, mapErase]
  | cons p rest ih =>
    obtain ⟨k₀, v₀⟩ := p
    by_cases hp : k₀ = k
    · subst hp
      simp [mapGet, mapErase, Ne.symm h, ih]
    · by_cases hp' : k₀ = k'
      · simp [mapGet, mapErase, hp, hp', h]
      · simp [mapGet, mapErase, hp, hp', ih]

theorem mapGet_append (a b : AList κ α) (k : κ) :
    mapGet (a ++ b) k =
      match mapGet a k with
      | some v => some v
      | none => mapGet b k := by
  induction a with
  | nil => simp [mapGet]
  | cons p rest ih =>
    obtain ⟨k₀, v₀⟩ := p
    by_cases hp : k₀ = k
    · simp [mapGet, hp]
    · simp [mapGet, hp, ih]

theorem mapInsert_of_absent (m : AList κ α) (k : κ) (v : α)
    (h : mapGet m k = none) : mapInsert m k v = m ++ [(k, v)] := by
  induction m with
  | nil => simp [mapInsert]
  | cons p rest ih =>
    obtain ⟨k₀, v₀⟩ := p
    by_cases hp : k₀ = k
    · simp [mapGet, hp] at h
    · simp only [mapGet, hp, if_false] at h
      simp [mapInsert, hp, ih h]

theorem mapGet_eq_none_iff (m : AList κ α) (k : κ) :
    mapGet m k = none ↔ ∀ kv ∈ m, kv.1 ≠ k := by
  induction m with
  | nil => simp [mapGet]
  | cons p rest ih =>
    obtain ⟨k₀, v₀⟩ := p
    by_cases hp : k₀ = k
    · simp [mapGet, hp]
    · simp [mapGet, hp, ih]

theorem mapGet_map_value {β : Type} (m : AList κ α) (F : α → β) (k : κ) :
    mapGet (m.map (fun kv => (kv.1, F kv.2))) k = (mapGet m k).map F := by
  induction m with
  | nil => simp [mapGet]
  | cons p rest ih =>
    obtain ⟨k₀, v₀⟩ := p
    by_cases hp : k₀ = k
    · simp [mapGet, hp]
    · simp [mapGet, hp, ih]

theorem mapGet_keyed_map {β γ : Type} (cs : List β) (key : β → κ) (F : β → γ)
    (c : β) (hc : c ∈ cs) (hnd : (cs.map key).Nodup) :
    mapGet (cs.map (fun x => (key x, F x))) (key c) = some (F c) := by
  induction cs with
  | nil => cases hc
  | cons c₀ rest ih =>
    simp only [List.map, List.nodup_cons] at hnd
    rcases List.mem_cons.mp hc with h | h
    · subst h
      simp [mapGet]
    · have hne : key c₀ ≠ key c := by
        intro he
        exact hnd.1 (he ▸ List.mem_map_of_mem key h)
      simp only [List.map, mapGet, hne, if_false]
      exact ih h hnd.2

theorem mapGet_registerFold (entries : AList κ α) (m0 : AList κ α) (k : κ)
    (hnd : (entries.map Prod.fst).Nodup) :
    mapGet (entries.foldl (fun m kv => mapInsert m kv.1 kv.2) m0) k =
      match mapGet entries k with
      | some v => some v
      | none => mapGet m0 k := by
  induction entries generalizing m0 with
  | nil => simp [mapGet]
  | cons p rest ih =>
    obtain ⟨k₀, v₀⟩ := p
    simp only [List.map, List.nodup_cons] at hnd
    rw [List.foldl_cons, ih _ hnd.2]
    by_cases hp : k₀ = k
    · subst hp
      have hre : mapGet rest k₀ = none := by
        rw [mapGet_eq_none_iff]
        intro kv hkv he
        exact hnd.1 (he ▸ List.mem_map_of_mem Prod.fst hkv)
      rw [hre]
      simp [mapGet, mapGet_mapInsert_self]
    · have hk : k ≠ k₀ := fun h => hp h.symm
      rw [mapGet_mapInsert_ne _ _ _ _ hk]
      simp [mapGet, hp]

theorem mapGet_eraseFold_none (ids : List κ) (m : AList κ α) (k : κ)
    (h : mapGet m k = none) :
    mapGet (ids.foldl (fun m i => mapErase m i) m) k = none := by
  induction ids generalizing m with
  | nil => exact h
  | cons i ids ih =>
    rw [List.foldl_cons]
    apply ih
    by_cases hik : k = i
    · subst hik
      exact mapGet_mapErase_self _ _
    · rw [mapGet_mapErase_ne _ _ _ hik]
      exact h

theorem mapGet_eraseFold_of_mem (ids : List κ) (m : AList κ α) (k : κ)
    (h : k ∈ ids) :
    mapGet (ids.foldl (fun m i => mapErase m i) m) k = none := by
  induction ids generalizing m with
  | nil => cases h
  | cons i ids ih =>
    rw [List.foldl_cons]
    rcases List.mem_cons.mp h with h' | h'
    · subst h'
      exact mapGet_eraseFold_none _ _ _ (mapGet_mapErase_self _ _)
    · exact ih _ h'

end AList

namespace DstateA

open Discordgo

/-- **C2.** If the queried member id equals the guild's owner id,
`MemberPermissions` returns the all-permissions bitmask with no error.
The statement quantifies over an arbitrary `GuildState`, so the result is
independent of the member map, the channel map, the member's roles and
any channel permission overwrites. -/
theorem memberPermissions_owner (g : GuildState) (channelID memberID : String)
    (h : memberID = g.Guild.OwnerID) :
    g.MemberPermissions channelID memberID = .ok PermissionAll := by
  unfold GuildState.MemberPermissions
  simp [h]

/-- If some overwrite in the list is a role overwrite matching a held
role and allows bit `X`, the accumulated `allows` word of the role pass
has bit `X` set (regardless of the deny words). -/
theorem rolePass_snd_testBit (overwrites : List PermissionOverwrite)
    (mRoles : List String) (X : Nat) (ow : PermissionOverwrite)
    (hmem : ow ∈ overwrites) (hty : ow.«Type» = "role")
    (hrole : mRoles.contains ow.ID) (hX : ow.Allow.testBit X = true) :
    (rolePassOverwrites overwrites mRoles).2.testBit X = true := by
  unfold rolePassOverwrites
  suffices h : ∀ (L : List PermissionOverwrite) (init : Nat × Nat),
      (init.2.testBit X = true ∨
        ∃ ow ∈ L, (ow.«Type» = "role" ∧ mRoles.contains ow.ID = true) ∧
          ow.Allow.testBit X = true) →
      ((L.foldl
        (fun (acc : Nat × Nat) ow =>
          if ow.«Type» = "role" ∧ mRoles.contains ow.ID then
            (acc.1 ||| ow.Deny, acc.2 ||| ow.Allow)
          else acc)
        init).2).testBit X = true by
    exact h overwrites (0, 0) (Or.inr ⟨ow, hmem, ⟨hty, hrole⟩, hX⟩)
  intro L
  induction L with
  | nil =>
    rintro init (h | ⟨ow', hmem', _⟩)
    · exact h
    · cases hmem'
  | cons ow' L ih =>
    rintro init hinit
    rw [List.foldl_cons]
    apply ih
    by_cases hc : ow'.«Type» = "role" ∧ mRoles.contains ow'.ID
    · rcases hinit with h | ⟨ow'', hmem'', hcond'', hX''⟩
      · left
        simp only [if_pos hc, Nat.testBit_lor, h, Bool.true_or]
      · rcases List.mem_cons.mp hmem'' with h'' | hmem''
        · left
          subst h''
          simp only [if_pos hc, Nat.testBit_lor, hX'', Bool.or_true]
        · right
          exact ⟨ow'', hmem'', hcond'', hX''⟩
    · rcases hinit with h | ⟨ow'', hmem'', hcond'', hX''⟩
      · left
        simpa only [if_neg hc] using h
      · rcases List.mem_cons.mp hmem'' with h'' | hmem''
        · exact absurd (h'' ▸ hcond'') hc
        · right
          exact ⟨ow'', hmem'', hcond'', hX''⟩

/-- The member-overwrite block preserves a set bit `X` when no overwrite
of type "member" for this member denies `X`. -/
theorem memberOverwritePass_testBit (overwrites : List PermissionOverwrite)
    (memberID : String) (a : Nat) (X : Nat) (ha : a.testBit X = true)
    (hmemow : ∀ ow ∈ overwrites, ow.«Type» = "member" → ow.ID = memberID →
      ow.Deny.testBit X = false) :
    (memberOverwritePass overwrites memberID a).testBit X = true := by
  unfold memberOverwritePass
  cases hfind : overwrites.find?
      (fun ow => ow.«Type» = "member" ∧ ow.ID = memberID) with
  | none => exact ha
  | some ow =>
    have hmem := List.mem_of_find?_eq_some hfind
    have hpred := List.find?_some hfind
    simp only [decide_eq_true_eq] at hpred
    have hdeny := hmemow ow hmem hpred.1 hpred.2
    simp only [Nat.testBit_lor, testBit_andNot, ha, hdeny, Bool.not_false,
      Bool.and_true, Bool.true_or]

/-- The final administrator re-check only ORs bits in, so it preserves a
set bit. -/
theorem adminChannelPass_testBit (a X : Nat) (ha : a.testBit X = true) :
    (adminChannelPass a).testBit X = true := by
  unfold adminChannelPass
  split
  · simp only [Nat.testBit_lor, ha, Bool.true_or]
  · exact ha

/-- **C1, counterexample.**  On the concrete guild `exGuildC1
exOverwritesC1`, role overwrite "r1" denies bit 10, role overwrite "r2"
(for another role member "m" holds) allows bit 10, yet the resulting
permission bitmask is `0`: bit 10 is *not* set, because the
member-specific overwrite for "m" — applied after the role pass with
higher precedence — denies it again.  This refutes the claim's universal
consequence. -/
theorem memberPermissions_rolePass_counterexample :
    (exGuildC1 exOverwritesC1).MemberPermissions "c" "m" = .ok 0 ∧
      Nat.testBit 0 10 = false := by
  constructor
  · decide
  · decide

/-- **C1, amended.**  The role-overwrite pass is accumulated: if the
member is not the owner, their aggregated role permissions lack the
administrator bit, and some role overwrite for a held role allows bit
`X`, then bit `X` is set in the result — even when a different role
overwrite (here `owD`, for another role the member holds) denies the same
bit — *provided additionally* that no member-specific overwrite for this
member denies bit `X` (the member overwrite is applied after the
accumulated role pass, with higher precedence). -/
theorem memberPermissions_rolePass_amended
    (g : GuildState) (channelID memberID : String) (member : Member)
    (cState : ChannelState) (X : Nat) (owA owD : PermissionOverwrite)
    (hown : memberID ≠ g.Guild.OwnerID)
    (hmem : (g.Member memberID).bind (fun mState => mState.Member) = some member)
    (hadmin : aggregatedRolePerms g (member.Roles.getD []) &&&
      PermissionAdministrator ≠ PermissionAdministrator)
    (hchan : g.Channel channelID = some cState)
    (howAmem : owA ∈ cState.Channel.PermissionOverwrites.getD [])
    (htyA : owA.«Type» = "role")
    (hroleA : (member.Roles.getD []).contains owA.ID)
    (hXA : owA.Allow.testBit X = true)
    (howDmem : owD ∈ cState.Channel.PermissionOverwrites.getD [])
    (htyD : owD.«Type» = "role")
    (hroleD : (member.Roles.getD []).contains owD.ID)
    (hXD : owD.Deny.testBit X = true)
    (hne : owA ≠ owD)
    (hmemow : ∀ ow ∈ cState.Channel.PermissionOverwrites.getD [],
      ow.«Type» = "member" → ow.ID = memberID → ow.Deny.testBit X = false) :
    ∃ p, g.MemberPermissions channelID memberID = .ok p ∧
      p.testBit X = true := by
  unfold GuildState.MemberPermissions
  rw [if_neg hown, hmem]
  dsimp only
  rw [if_neg hadmin, hchan]
  dsimp only
  refine ⟨_, rfl, ?_⟩
  apply adminChannelPass_testBit
  apply memberOverwritePass_testBit _ _ _ _ _ hmemow
  have hA := rolePass_snd_testBit (cState.Channel.PermissionOverwrites.getD [])
    (member.Roles.getD []) X owA howAmem htyA hroleA hXA
  simp only [Nat.testBit_lor, hA, Bool.or_true]

/-- Witness for `memberPermissions_rolePass_amended` on the concrete
guild without a member-specific overwrite: bit 10 ends up set. -/
theorem memberPermissions_rolePass_amended_witness :
    ∃ p, (exGuildC1 exOverwritesC1').MemberPermissions "c" "m" = .ok p ∧
      p.testBit 10 = true :=
  memberPermissions_rolePass_amended (exGuildC1 exOverwritesC1') "c" "m"
    exMemberC1 (exCStateC1 exOverwritesC1') 10
    { ID := "r2", «Type» := "role", Allow := 1024, Deny := 0 }
    { ID := "r1", «Type» := "role", Allow := 0, Deny := 1024 }
    (by decide) (by decide) (by decide) (by decide) (by decide) (by decide)
    (by decide) (by decide) (by decide) (by decide) (by decide) (by decide)
    (by decide) (by decide)

/-- `(a ||| b) &&& b = b`: ORing `b` in guarantees all of `b`'s bits. -/
theorem lor_land_self (a b : Nat) : (a ||| b) &&& b = b := by
  apply Nat.eq_of_testBit_eq
  intro i
  cases h : b.testBit i <;> simp [Nat.testBit_land, Nat.testBit_lor, h]

/-- **C3.**  `MemberPermissions` returns `ErrMemberNotFound` exactly when
the member id is not the owner's and the guild has no membership record
for it; returns `ErrChannelNotFound` exactly when the member id is not
the owner's, a membership record exists, its aggregated role permissions
lack the administrator bit, and the channel id is unknown; and a
non-owner member whose aggregated role permissions include the
administrator bit receives a result containing every bit of
`PermissionAll` with no error, for any channel id (known or not).  Both
errors are ordinary return values of the total function. -/
theorem memberPermissions_errors (g : GuildState) (channelID memberID : String) :
    (g.MemberPermissions channelID memberID = .error .memberNotFound ↔
      memberID ≠ g.Guild.OwnerID ∧
        (g.Member memberID).bind (fun mState => mState.Member) = none) ∧
    (g.MemberPermissions channelID memberID = .error .channelNotFound ↔
      memberID ≠ g.Guild.OwnerID ∧
        (∃ member,
          (g.Member memberID).bind (fun mState => mState.Member) = some member ∧
          aggregatedRolePerms g (member.Roles.getD []) &&&
            PermissionAdministrator ≠ PermissionAdministrator) ∧
        g.Channel channelID = none) ∧
    (∀ member, memberID ≠ g.Guild.OwnerID →
      (g.Member memberID).bind (fun mState => mState.Member) = some member →
      aggregatedRolePerms g (member.Roles.getD []) &&& PermissionAdministrator
        = PermissionAdministrator →
      ∃ p, g.MemberPermissions channelID memberID = .ok p ∧
        p &&& PermissionAll = PermissionAll) := by
  by_cases howner : memberID = g.Guild.OwnerID
  · unfold GuildState.MemberPermissions
    rw [if_pos howner]
    refine ⟨by simp [howner], by simp [howner], ?_⟩
    intro member hown
    exact absurd howner hown
  · cases hm : (g.Member memberID).bind (fun mState => mState.Member) with
    | none =>
      unfold GuildState.MemberPermissions
      rw [if_neg howner, hm]
      refine ⟨by simp [howner], by simp, ?_⟩
      intro member _ hsome
      cases hsome
    | some member =>
      by_cases hadm : aggregatedRolePerms g (member.Roles.getD []) &&&
          PermissionAdministrator = PermissionAdministrator
      · unfold GuildState.MemberPermissions
        rw [if_neg howner, hm]
        dsimp only
        rw [if_pos hadm]
        refine ⟨by simp, ?_, ?_⟩
        · simp only [reduceCtorEq, false_iff, not_and]
          intro _ hex
          rcases hex with ⟨member', hmem', hadm'⟩
          cases hmem'
          exact absurd hadm hadm'
        · intro member' _ hsome _
          cases hsome
          exact ⟨_, rfl, lor_land_self _ _⟩
      · cases hc : g.Channel channelID with
        | none =>
          unfold GuildState.MemberPermissions
          rw [if_neg howner, hm]
          dsimp only
          rw [if_neg hadm, hc]
          refine ⟨by simp, ?_, ?_⟩
          · simp only [true_iff]
            exact ⟨howner, ⟨member, rfl, hadm⟩, by trivial⟩
          · intro member' _ hsome hadm'
            cases hsome
            exact absurd hadm' hadm
        | some cState =>
          unfold GuildState.MemberPermissions
          rw [if_neg howner, hm]
          dsimp only
          rw [if_neg hadm, hc]
          dsimp only
          refine ⟨by simp, by simp, ?_⟩
          intro member' _ hsome hadm'
          cases hsome
          exact absurd hadm' hadm

/-- Witness for `memberPermissions_errors`: an administrator member of
`exGuildC3` queried with an unknown channel id gets every permission
bit and no error. -/
theorem memberPermissions_errors_witness :
    ∃ p, exGuildC3.MemberPermissions "nochan" "m" = .ok p ∧
      p &&& PermissionAll = PermissionAll :=
  (memberPermissions_errors exGuildC3 "nochan" "m").2.2 exMemberC3
    (by decide) (by decide) (by decide)

/-- Witness for `memberPermissions_owner` at a concrete guild state. -/
theorem memberPermissions_owner_witness :
    exGuildC10.MemberPermissions "chan" "o" = .ok PermissionAll :=
  memberPermissions_owner exGuildC10 "chan" "o" rfl

/-- After `PresenceAddUpdate` with a non-empty status, the member entry
for the presence's user exists and carries exactly that status. -/
theorem presenceAddUpdate_self (g : GuildState) (p : Presence)
    (hne : p.Status ≠ "") :
    ∃ ms pr, mapGet (g.PresenceAddUpdate p).1.Members p.User.ID = some ms ∧
      ms.Presence = some pr ∧ pr.Status = p.Status := by
  unfold GuildState.PresenceAddUpdate
  cases hm : mapGet g.Members p.User.ID with
  | none =>
    dsimp only
    exact ⟨_, _, AList.mapGet_mapInsert_self _ _ _, rfl, rfl⟩
  | some existing =>
    obtain ⟨mem0, pres0⟩ := existing
    dsimp only
    cases pres0 with
    | none =>
      dsimp only
      exact ⟨_, _, AList.mapGet_mapInsert_self _ _ _, rfl, rfl⟩
    | some oldP =>
      dsimp only
      refine ⟨_, _, AList.mapGet_mapInsert_self _ _ _, rfl, ?_⟩
      simp [hne]

/-- **C10.**  When `PresenceAddUpdate` receives status "offline" and the
offline-eviction policy is enabled: (1) it schedules the deferred
re-check one minute later for that user; (2) if the deferred check fires
with the presence still offline, the member is evicted; (3) if the
status flips back to "online" before the check fires, the member is
still present (with the online status) after the check runs. -/
theorem presenceOfflineEviction (g : GuildState) (p : Presence)
    (hoff : p.Status = StatusOffline) (hflag : g.removeOfflineMembers = true) :
    ((g.PresenceAddUpdate p).2 = some ⟨timeMinute, p.User.ID⟩) ∧
    (mapGet ((g.PresenceAddUpdate p).1.offlineCheck p.User.ID).Members
        p.User.ID = none) ∧
    (∀ q : Presence, q.User.ID = p.User.ID → q.Status = StatusOnline →
      ∃ ms, mapGet ((((g.PresenceAddUpdate p).1.PresenceAddUpdate q).1.offlineCheck
          p.User.ID)).Members p.User.ID = some ms ∧
        ∃ pr, ms.Presence = some pr ∧ pr.Status = StatusOnline) := by
  have hne : p.Status ≠ "" := by rw [hoff]; decide
  obtain ⟨ms1, pr1, hget1, hpre1, hst1⟩ := presenceAddUpdate_self g p hne
  refine ⟨?_, ?_, ?_⟩
  · unfold GuildState.PresenceAddUpdate
    simp [hoff, hflag]
  · unfold GuildState.offlineCheck GuildState.Member
    rw [hget1]
    dsimp only
    rw [hpre1]
    dsimp only
    rw [if_pos (by rw [hst1, hoff])]
    exact AList.mapGet_mapErase_self _ _
  · intro q hqid hqon
    have hqne : q.Status ≠ "" := by rw [hqon]; decide
    have h2 := presenceAddUpdate_self (g.PresenceAddUpdate p).1 q hqne
    obtain ⟨ms2, pr2, hget2, hpre2, hst2⟩ := h2
    rw [hqid] at hget2
    unfold GuildState.offlineCheck GuildState.Member
    rw [hget2]
    dsimp only
    rw [hpre2]
    dsimp only
    rw [if_neg (by rw [hst2, hqon]; decide)]
    exact ⟨ms2, hget2, pr2, hpre2, by rw [hst2, hqon]⟩

/-- Witness for `presenceOfflineEviction`: user "u" goes offline in
`exGuildC10`; a timer for one minute is scheduled; firing the check
evicts "u" if still offline, but after flipping back online "u"
survives the check. -/
theorem presenceOfflineEviction_witness :
    ((exGuildC10.PresenceAddUpdate exPresOff).2
        = some ⟨timeMinute, exPresOff.User.ID⟩) ∧
    (mapGet ((exGuildC10.PresenceAddUpdate exPresOff).1.offlineCheck
        exPresOff.User.ID).Members exPresOff.User.ID = none) ∧
    (∃ ms, mapGet
        ((((exGuildC10.PresenceAddUpdate exPresOff).1.PresenceAddUpdate
          exPresOn).1.offlineCheck exPresOff.User.ID)).Members
        exPresOff.User.ID = some ms ∧
      ∃ pr, ms.Presence = some pr ∧ pr.Status = StatusOnline) := by
  have h := presenceOfflineEviction exGuildC10 exPresOff (by decide) (by decide)
  exact ⟨h.1, h.2.1, h.2.2 exPresOn rfl (by decide)⟩

/-- `MemberAddUpdate` does not touch the channel map. -/
theorem memberAddUpdate_Channels (g : GuildState) (m : DstateA.Member) :
    (g.MemberAddUpdate m).Channels = g.Channels := by
  unfold GuildState.MemberAddUpdate
  cases mapGet g.Members m.User.ID with
  | none => rfl
  | some existing =>
    obtain ⟨mm, pp⟩ := existing
    cases mm <;> rfl

/-- `PresenceAddUpdate` does not touch the channel map. -/
theorem presenceAddUpdate_Channels (g : GuildState) (p : Presence) :
    (g.PresenceAddUpdate p).1.Channels = g.Channels := by
  unfold GuildState.PresenceAddUpdate
  cases mapGet g.Members p.User.ID with
  | none => rfl
  | some existing =>
    obtain ⟨mm, pp⟩ := existing
    cases pp <;> rfl

/-- Folding `MemberAddUpdate` over a list does not touch the channel
map. -/
theorem memberFold_Channels (ms : List DstateA.Member) :
    ∀ g : GuildState,
      (ms.foldl (fun gs m => gs.MemberAddUpdate m) g).Channels = g.Channels := by
  induction ms with
  | nil => intro g; rfl
  | cons m ms ih =>
    intro g
    rw [List.foldl_cons, ih, memberAddUpdate_Channels]

/-- Folding `PresenceAddUpdate` over a list does not touch the channel
map. -/
theorem presenceFold_Channels (ps : List Presence) :
    ∀ g : GuildState,
      (ps.foldl (fun gs p => (gs.PresenceAddUpdate p).1) g).Channels
        = g.Channels := by
  induction ps with
  | nil => intro g; rfl
  | cons p ps ih =>
    intro g
    rw [List.foldl_cons, ih, presenceAddUpdate_Channels]

/-- Folding `ChannelAddUpdate` over channels with fresh distinct ids
appends one fresh channel state per snapshot, in order. -/
theorem channelFold_channels_eq (cs : List DstateA.Channel) :
    ∀ g : GuildState,
      (∀ c ∈ cs, mapGet g.Channels c.ID = none) →
      (cs.map Channel.ID).Nodup →
      (cs.foldl (fun gs c => (gs.ChannelAddUpdate c).1) g).Channels =
        g.Channels ++ cs.map (fun c => (c.ID, NewChannelState c)) := by
  induction cs with
  | nil =>
    intro g _ _
    simp
  | cons c cs ih =>
    intro g habs hnd
    rw [List.foldl_cons]
    have hc : mapGet g.Channels c.ID = none := habs c (List.mem_cons_self _ _)
    have hstep : (g.ChannelAddUpdate c).1.Channels
        = g.Channels ++ [(c.ID, NewChannelState c)] := by
      unfold GuildState.ChannelAddUpdate
      rw [hc]
      dsimp only
      exact AList.mapInsert_of_absent _ _ _ hc
    simp only [List.map, List.nodup_cons] at hnd
    have habs' : ∀ c' ∈ cs,
        mapGet (g.ChannelAddUpdate c).1.Channels c'.ID = none := by
      intro c' hc'
      rw [hstep, AList.mapGet_append]
      have h1 : mapGet g.Channels c'.ID = none :=
        habs c' (List.mem_cons_of_mem _ hc')
      rw [h1]
      have hne : c.ID ≠ c'.ID := by
        intro he
        exact hnd.1 (he ▸ List.mem_map_of_mem Channel.ID hc')
      simp [mapGet, hne]
    rw [ih _ habs' hnd.2, hstep, List.append_assoc]
    rfl

/-- The channel map of a freshly constructed guild state: one entry per
snapshot channel, keyed by its id, no messages. -/
theorem newGuildState_Channels (g : Guild) (st : Option State)
    (hnd : (g.Channels.map Channel.ID).Nodup) :
    (NewGuildState g st).Channels =
      g.Channels.map (fun c => (c.ID, NewChannelState c)) := by
  have hbase : (newGuildStateBase g st).Channels = [] := by
    cases st <;> rfl
  unfold NewGuildState
  dsimp only
  rw [presenceFold_Channels, memberFold_Channels,
    channelFold_channels_eq g.Channels (newGuildStateBase g st)
      (by intro c _; rw [hbase]; rfl) hnd, hbase]
  rfl

/-- **C9.**  `GuildCreate` for an already-present guild id: the new
guild state is built fresh from the incoming snapshot, every channel of
the new snapshot is present (in the guild's map and in the global
index) carrying the old channel's message window when a channel of the
same id existed, and an empty window otherwise; channels of the old
guild absent from the new snapshot are no longer in the global index,
dropping their messages. -/
theorem guildCreate_preserves_messages (s : State) (g : Guild)
    (oldGuild : GuildState)
    (hold : mapGet s.Guilds g.ID = some oldGuild)
    (hwf : ∀ kv ∈ oldGuild.Channels, kv.2.Channel.ID = kv.1)
    (hnd : (g.Channels.map Channel.ID).Nodup) :
    ∃ gs', mapGet (s.GuildCreate g).Guilds g.ID = some gs' ∧
      (∀ c ∈ g.Channels, ∃ cs,
        mapGet gs'.Channels c.ID = some cs ∧
        mapGet (s.GuildCreate g).channels c.ID = some cs ∧
        cs.Channel = c ∧
        cs.Messages = (match mapGet oldGuild.Channels c.ID with
                       | some oldCs => oldCs.Messages
                       | none => [])) ∧
      (∀ cid, (∃ kv ∈ oldGuild.Channels, kv.1 = cid) →
        cid ∉ g.Channels.map Channel.ID →
        mapGet (s.GuildCreate g).channels cid = none) := by
  unfold State.GuildCreate
  rw [hold]
  dsimp only
  rw [newGuildState_Channels g (some s) hnd]
  rw [List.map_map]
  -- the reattach map composed with the constructor map, as one map
  have hcomp :
      (g.Channels.map
        ((fun kv : String × ChannelState =>
          match mapGet (oldGuild.Channels.map
              (fun kv => (kv.2.Channel.ID, kv.2.Messages))) kv.2.Channel.ID with
          | some preserved => (kv.1, { kv.2 with Messages := preserved })
          | none => kv) ∘ (fun c => (c.ID, NewChannelState c))))
      = g.Channels.map (fun c => (c.ID,
          match mapGet (oldGuild.Channels.map
              (fun kv => (kv.2.Channel.ID, kv.2.Messages))) c.ID with
          | some preserved => { Channel := c, Messages := preserved }
          | none => NewChannelState c)) := by
    apply List.map_congr_left
    intro c _
    dsimp only [Function.comp, NewChannelState]
    cases mapGet (oldGuild.Channels.map
        (fun kv => (kv.2.Channel.ID, kv.2.Messages))) c.ID <;> rfl
  rw [hcomp]
  have hpres : oldGuild.Channels.map
      (fun kv => (kv.2.Channel.ID, kv.2.Messages))
      = oldGuild.Channels.map (fun kv => (kv.1, kv.2.Messages)) :=
    List.map_congr_left (fun kv hkv => by rw [hwf kv hkv])
  have hkeys : ((g.Channels.map (fun c => (c.ID,
      match mapGet (oldGuild.Channels.map
          (fun kv => (kv.2.Channel.ID, kv.2.Messages))) c.ID with
      | some preserved => ({ Channel := c, Messages := preserved } : ChannelState)
      | none => NewChannelState c))).map Prod.fst)
      = g.Channels.map Channel.ID := by
    rw [List.map_map]
    rfl
  refine ⟨_, AList.mapGet_mapInsert_self _ _ _, ?_, ?_⟩
  · intro c hc
    refine ⟨_, AList.mapGet_keyed_map g.Channels Channel.ID _ c hc hnd, ?_, ?_, ?_⟩
    · rw [AList.mapGet_registerFold _ _ _ (by rw [hkeys]; exact hnd)]
      rw [AList.mapGet_keyed_map g.Channels Channel.ID _ c hc hnd]
    · cases mapGet (oldGuild.Channels.map
          (fun kv => (kv.2.Channel.ID, kv.2.Messages))) c.ID <;> rfl
    · rw [hpres, AList.mapGet_map_value]
      cases mapGet oldGuild.Channels c.ID <;> rfl
  · rintro cid ⟨kv, hkv, rfl⟩ hnotin
    rw [AList.mapGet_registerFold _ _ _ (by rw [hkeys]; exact hnd)]
    have hnone : mapGet (g.Channels.map (fun c => (c.ID,
        match mapGet (oldGuild.Channels.map
            (fun kv => (kv.2.Channel.ID, kv.2.Messages))) c.ID with
        | some preserved => ({ Channel := c, Messages := preserved } : ChannelState)
        | none => NewChannelState c))) kv.1 = none := by
      rw [AList.mapGet_eq_none_iff]
      intro kv' hkv' he
      rcases List.mem_map.mp hkv' with ⟨c, hcmem, rfl⟩
      exact hnotin (he ▸ List.mem_map_of_mem Channel.ID hcmem)
    rw [hnone]
    apply AList.mapGet_eraseFold_of_mem
    rw [← hwf kv hkv]
    exact List.mem_map_of_mem (fun kv => kv.2.Channel.ID) hkv

/-- Witness for `guildCreate_preserves_messages`: recreating guild "G"
keeps channel "c1"'s cached message, gives the new channel "c3" an
empty window, and drops "c2" (and its message) from the global index. -/
theorem guildCreate_preserves_messages_witness :
    ∃ gs', mapGet (exStateC9.GuildCreate exNewSnapshotC9).Guilds "G"
        = some gs' ∧
      (∃ cs, mapGet gs'.Channels "c1" = some cs ∧
        cs.Messages = [exMsgA "m1"]) ∧
      (∃ cs, mapGet gs'.Channels "c3" = some cs ∧ cs.Messages = []) ∧
      mapGet (exStateC9.GuildCreate exNewSnapshotC9).channels "c2" = none := by
  obtain ⟨gs', h1, h2, h3⟩ := guildCreate_preserves_messages exStateC9
    exNewSnapshotC9 exOldGuildC9 (by decide) (by decide) (by decide)
  obtain ⟨cs1, hg1, _, _, hm1⟩ := h2 (exChan "c1") (by decide)
  obtain ⟨cs3, hg3, _, _, hm3⟩ := h2 (exChan "c3") (by decide)
  refine ⟨gs', h1, ⟨cs1, hg1, ?_⟩, ⟨cs3, hg3, ?_⟩, ?_⟩
  · rw [hm1]
    decide
  · rw [hm3]
    decide
  · exact h3 "c2" ⟨("c2", { Channel := exChan "c2", Messages := [exMsgA "m2"] }),
      by decide, rfl⟩ (by decide)

end DstateA

namespace DstateB

/-- **C7.**  The "deep" channel copy is not mutation-safe: on the
concrete one-overwrite channel, the copy's overwrite list holds the very
pointer of the source's overwrite (while the freshly allocated `powCopy`
leaks as a second, unused heap slot), so writing through the copy's
first overwrite pointer is visible through the source channel's first
overwrite pointer.  This contradicts the code's own intent (`powCopy`
is allocated and initialised, then discarded) and the spec's
mutation-safety guarantee. -/
theorem copyChannel_deep_aliases :
    ((copyChannel exHeapC7 exChanC7 true).2.PermissionOverwrites
        = exChanC7.PermissionOverwrites) ∧
    ((copyChannel exHeapC7 exChanC7 true).1.length = 2) ∧
    (readOw
      (writeOw (copyChannel exHeapC7 exChanC7 true).1
        ((copyChannel exHeapC7 exChanC7 true).2.PermissionOverwrites.headD 99)
        exOwMutC7)
      (exChanC7.PermissionOverwrites.headD 99) = exOwMutC7) := by
  refine ⟨by decide, by decide, by decide⟩

/-- **C8, counterexample.**  A member state that has already observed
membership (username "alice") still has its username overwritten by a
later presence update carrying username "bob": presence-carried name
fields are not all protected once membership is set. -/
theorem updatePresence_username_counterexample :
    exMemberStateC8.MemberSet = true ∧
    exMemberStateC8.Username = "alice" ∧
    (exMemberStateC8.UpdatePresence exPresenceC8).Username = "bob" ∧
    ("bob" : String) ≠ "alice" := by
  refine ⟨by decide, by decide, by decide, by decide⟩

/-- **C8, amended.**  Before membership is observed a presence update
populates the nickname (and the username when non-empty) from the
presence payload; once membership is set, presence updates never
overwrite the membership-derived *nickname* — but the *username* is
still overwritten by any presence whose payload carries a non-empty
username (and kept only when the payload's username is empty). -/
theorem updatePresence_name_fields (m : MemberState) (p : Presence) :
    (m.MemberSet = true → (m.UpdatePresence p).Nick = m.Nick) ∧
    (m.MemberSet = false → (m.UpdatePresence p).Nick = p.Nick) ∧
    (p.User.Username ≠ "" →
      (m.UpdatePresence p).Username = p.User.Username) ∧
    (p.User.Username = "" → (m.UpdatePresence p).Username = m.Username) := by
  refine ⟨?_, ?_, ?_, ?_⟩ <;> intro h <;>
    simp [MemberState.UpdatePresence, h]

/-- Witness for `updatePresence_name_fields` at the C8 inputs: the nick
survives ("alice"'s record keeps "nick0") while the username is taken
from the presence. -/
theorem updatePresence_name_fields_witness :
    ((exMemberStateC8.UpdatePresence exPresenceC8).Nick
        = exMemberStateC8.Nick) ∧
    ((exMemberStateC8.UpdatePresence exPresenceC8).Username
        = exPresenceC8.User.Username) :=
  ⟨(updatePresence_name_fields exMemberStateC8 exPresenceC8).1 (by decide),
   (updatePresence_name_fields exMemberStateC8 exPresenceC8).2.2.1 (by decide)⟩

/-- The age loop, characterised: starting the scan at index `i` (with
everything at `i` and above already checked and not too old), it yields
`msgs.drop k` where `k` is the greatest index below `i` holding an entry
with a non-zero parsed time older than `now - maxAge` (and `k = 0` when
there is none). -/
theorem ageScan_characterization (now maxAge : Int) (msgs : List MessageState) :
    ∀ i : Nat, i ≤ msgs.length →
    (∀ j (hj : j < msgs.length), i ≤ j →
      ¬ tooOld now maxAge (msgs.get ⟨j, hj⟩)) →
    ∃ k, ageScan now maxAge msgs i = msgs.drop k ∧
      (∀ j (hj : j < msgs.length), k < j →
        ¬ tooOld now maxAge (msgs.get ⟨j, hj⟩)) ∧
      (k ≠ 0 → ∃ hk : k < msgs.length,
        tooOld now maxAge (msgs.get ⟨k, hk⟩)) := by
  intro i
  induction i with
  | zero =>
    intro _ h
    exact ⟨0, by simp [ageScan], fun j hj hlt => h j hj (Nat.zero_le j),
      fun h0 => absurd rfl h0⟩
  | succ i ih =>
    intro hi h
    have hilt : i < msgs.length := Nat.lt_of_succ_le hi
    have hgetD : msgs.getD i defaultMessageState = msgs.get ⟨i, hilt⟩ := by
      rw [List.getD_eq_getElem?_getD, List.getElem?_eq_getElem hilt]
      rfl
    unfold ageScan
    by_cases hc : (msgs.getD i defaultMessageState).ParsedCreated ≠ 0 ∧
        now - (msgs.getD i defaultMessageState).ParsedCreated > maxAge
    · rw [if_pos hc]
      refine ⟨i, rfl, ?_, ?_⟩
      · intro j hj hij
        exact h j hj (Nat.succ_le_of_lt hij)
      · intro _
        refine ⟨hilt, ?_⟩
        rw [hgetD] at hc
        exact hc
    · rw [if_neg hc]
      apply ih (Nat.le_of_succ_le hi)
      intro j hj hij
      rcases Nat.eq_or_lt_of_le hij with he | hlt
      · intro hold
        apply hc
        rw [hgetD]
        have : (⟨j, hj⟩ : Fin msgs.length) = ⟨i, hilt⟩ := by
          apply Fin.ext
          exact he.symm
        rw [← this]
        exact hold
      · exact h j hj (Nat.succ_le_of_lt hlt)

/-- **C5.**  With `maxAge = 0` the age eviction is disabled entirely
(only the count trim applies).  With `maxAge > 0`, after the count trim
the window is truncated to a suffix `drop k` — not filtered
element-by-element — where the new head index `k` is the newest entry
whose *non-zero* cached created-time is older than `now - maxAge`
(entries with a zero, unparsed created-time are skipped), and `k = 0`
(nothing discarded) when no such entry exists; every entry newer than
position `k` is not too old. -/
theorem updateMessages_age_truncation (now : Int) (msgs : List MessageState)
    (maxMsgs maxAge : Int) :
    (maxAge = 0 → UpdateMessages now msgs maxMsgs 0 = countTrim msgs maxMsgs) ∧
    (0 < maxAge →
      ∃ k, UpdateMessages now msgs maxMsgs maxAge
          = (countTrim msgs maxMsgs).drop k ∧
        (∀ j (hj : j < (countTrim msgs maxMsgs).length), k < j →
          ¬ tooOld now maxAge ((countTrim msgs maxMsgs).get ⟨j, hj⟩)) ∧
        (k ≠ 0 → ∃ hk : k < (countTrim msgs maxMsgs).length,
          tooOld now maxAge ((countTrim msgs maxMsgs).get ⟨k, hk⟩))) := by
  constructor
  · intro _
    unfold UpdateMessages
    simp
  · intro hpos
    unfold UpdateMessages
    rw [if_neg (by omega)]
    exact ageScan_characterization now maxAge (countTrim msgs maxMsgs)
      (countTrim msgs maxMsgs).length (Nat.le_refl _)
      (fun j hj hij => absurd hj (by omega))

/-- Witness for `updateMessages_age_truncation`: a three-entry window
(old parsed time 1, unparsed 0, fresh parsed time 90) at `now = 100`
with `maxAge = 5`: the scan skips nothing newer, and both the `maxAge =
0` branch and the `maxAge = 5` branch are exercised. -/
theorem updateMessages_age_truncation_witness :
    (UpdateMessages 100 [exMsgStateC5 1 1, exMsgStateC5 2 0, exMsgStateC5 3 90]
        (-1) 0 = countTrim [exMsgStateC5 1 1, exMsgStateC5 2 0,
          exMsgStateC5 3 90] (-1)) ∧
    (∃ k, UpdateMessages 100 [exMsgStateC5 1 1, exMsgStateC5 2 0,
          exMsgStateC5 3 90] (-1) 5
        = (countTrim [exMsgStateC5 1 1, exMsgStateC5 2 0,
            exMsgStateC5 3 90] (-1)).drop k ∧
      (∀ j (hj : j < (countTrim [exMsgStateC5 1 1, exMsgStateC5 2 0,
            exMsgStateC5 3 90] (-1)).length), k < j →
        ¬ tooOld 100 5 ((countTrim [exMsgStateC5 1 1, exMsgStateC5 2 0,
            exMsgStateC5 3 90] (-1)).get ⟨j, hj⟩)) ∧
      (k ≠ 0 → ∃ hk : k < (countTrim [exMsgStateC5 1 1, exMsgStateC5 2 0,
            exMsgStateC5 3 90] (-1)).length,
        tooOld 100 5 ((countTrim [exMsgStateC5 1 1, exMsgStateC5 2 0,
            exMsgStateC5 3 90] (-1)).get ⟨k, hk⟩))) :=
  ⟨(updateMessages_age_truncation 100 [exMsgStateC5 1 1, exMsgStateC5 2 0,
      exMsgStateC5 3 90] (-1) 0).1 rfl,
   (updateMessages_age_truncation 100 [exMsgStateC5 1 1, exMsgStateC5 2 0,
      exMsgStateC5 3 90] (-1) 5).2 (by decide)⟩

/-- The in-place patch of `MessageAddUpdate` never changes any message
id in the window. -/
theorem updateFirstMessage_map_id (parse : String → Int) :
    ∀ (w : List MessageState) (msg : Message),
      (updateFirstMessage parse w msg).map (fun m => m.Message.ID)
        = w.map (fun m => m.Message.ID) := by
  intro w
  induction w with
  | nil => intro msg; rfl
  | cons m rest ih =>
    intro msg
    unfold updateFirstMessage
    by_cases hc : m.Message.ID = msg.ID
    · rw [if_pos hc]
      have hid : (m.Update parse msg).Message.ID = m.Message.ID := rfl
      simp [List.map, hid]
    · rw [if_neg hc]
      simp [List.map, ih]

/-- One `MessageAddUpdate` step refines one id-level spec step and keeps
the window within the bound. -/
theorem messageAddUpdate_step (parse : String → Int) (now : Int) (N : Int)
    (hN : 0 ≤ N ∨ N = -1)
    (w : List MessageState) (msg : Message)
    (hlen : 0 ≤ N → (w.length : Int) ≤ N) :
    (MessageAddUpdate parse now w msg N 0).map (fun m => m.Message.ID)
      = specWindowStep N (w.map (fun m => m.Message.ID)) msg.ID ∧
    (0 ≤ N → ((MessageAddUpdate parse now w msg N 0).length : Int) ≤ N) := by
  unfold MessageAddUpdate UpdateMessages
  cases hf : w.find? (fun m => m.Message.ID = msg.ID) with
  | some m0 =>
    have hp := List.find?_some hf
    simp only [decide_eq_true_eq] at hp
    have hmem : msg.ID ∈ w.map (fun m => m.Message.ID) :=
      hp ▸ List.mem_map_of_mem _ (List.mem_of_find?_eq_some hf)
    have hulen : (updateFirstMessage parse w msg).length = w.length := by
      have h := congrArg List.length (updateFirstMessage_map_id parse w msg)
      simpa using h
    have hcond : ¬(((updateFirstMessage parse w msg).length : Int) > N ∧
        N ≠ -1) := by
      rcases hN with hpos | hm1
      · intro hh
        have := hlen hpos
        rw [hulen] at hh
        omega
      · exact fun hh => hh.2 hm1
    dsimp only
    rw [if_pos rfl]
    unfold countTrim
    rw [if_neg hcond]
    constructor
    · rw [updateFirstMessage_map_id parse w msg]
      unfold specWindowStep
      rw [if_pos hmem]
    · intro h0
      rw [hulen]
      exact hlen h0
  | none =>
    have hnmem : msg.ID ∉ w.map (fun m => m.Message.ID) := by
      intro hmem
      rcases List.mem_map.mp hmem with ⟨m0, hm0, hid⟩
      have := List.find?_eq_none.mp hf m0 hm0
      simp [hid] at this
    have hid' : (MessageState.ParseTimes parse
        { Message := msg, Deleted := false, ParsedCreated := 0,
          ParsedEdited := 0 }).Message.ID = msg.ID := rfl
    have hids : (w ++ [MessageState.ParseTimes parse
        { Message := msg, Deleted := false, ParsedCreated := 0,
          ParsedEdited := 0 }]).map (fun m => m.Message.ID)
        = w.map (fun m => m.Message.ID) ++ [msg.ID] := by
      rw [List.map_append]
      simp [hid']
    have hlens : (w ++ [MessageState.ParseTimes parse
        { Message := msg, Deleted := false, ParsedCreated := 0,
          ParsedEdited := 0 }]).length = w.length + 1 := by
      simp
    dsimp only
    rw [if_pos rfl]
    unfold countTrim specWindowStep
    rw [if_neg hnmem]
    rcases Classical.em (N = -1) with hm1 | hm1
    · subst hm1
      rw [if_neg (by intro hh; exact hh.2 rfl), if_pos rfl]
      exact ⟨hids, by intro h0; omega⟩
    · rw [if_neg hm1]
      have hNpos : 0 ≤ N := hN.resolve_right hm1
      by_cases htrim : ((w.length : Int) + 1 > N)
      · rw [if_pos (by rw [hlens]; push_cast; exact ⟨by omega, hm1⟩)]
        constructor
        · rw [List.map_drop, hids, hlens]
          congr 1
          have h1 : (w.map (fun m => m.Message.ID) ++ [msg.ID]).length
              = w.length + 1 := by simp
          rw [h1]
          omega
        · intro h0
          rw [List.length_drop, hlens]
          omega
      · rw [if_neg (by rw [hlens]; push_cast; intro hh; exact htrim hh.1)]
        constructor
        · rw [hids]
          have h1 : (w.map (fun m => m.Message.ID) ++ [msg.ID]).length
              = w.length + 1 := by simp
          rw [h1]
          have h2 : w.length + 1 - N.toNat = 0 := by omega
          rw [h2, List.drop_zero]
        · intro h0
          rw [hlens]
          omega

/-- **C4, amended.**  For every sequence of add-or-update operations
with `maxCount = N` (`N ≥ 0`, or `N = -1` for no bound) and age eviction
disabled: the window holds at most `N` entries, and its ids are exactly
the id-level window `specWindowIds` — the at-most-`N` most recently
*inserted* ids, evicted oldest-first.  An update of an id already in the
window patches it in place and does **not** refresh its recency (the
difference with the claim as stated). -/
theorem messageWindow_most_recent_inserted (parse : String → Int) (now : Int)
    (ops : List Message) (N : Int) (hN : 0 ≤ N ∨ N = -1) :
    (runWindow parse now ops N).map (fun m => m.Message.ID)
        = specWindowIds (ops.map Message.ID) N ∧
    (0 ≤ N → ((runWindow parse now ops N).length : Int) ≤ N) := by
  suffices h : ∀ (ops : List Message) (w : List MessageState),
      (0 ≤ N → (w.length : Int) ≤ N) →
      ((ops.foldl (fun w msg => MessageAddUpdate parse now w msg N 0) w).map
          (fun m => m.Message.ID)
        = (ops.map Message.ID).foldl (specWindowStep N)
            (w.map (fun m => m.Message.ID))) ∧
      (0 ≤ N →
        (((ops.foldl (fun w msg => MessageAddUpdate parse now w msg N 0)
            w).length : Int) ≤ N)) by
    have h0 := h ops [] (by intro h'; simpa using h')
    exact ⟨h0.1, h0.2⟩
  intro ops
  induction ops with
  | nil =>
    intro w hw
    exact ⟨rfl, hw⟩
  | cons msg ops ih =>
    intro w hw
    rw [List.foldl_cons, List.map_cons, List.foldl_cons]
    obtain ⟨hids, hlen⟩ := messageAddUpdate_step parse now N hN w msg hw
    obtain ⟨ih1, ih2⟩ := ih (MessageAddUpdate parse now w msg N 0) hlen
    exact ⟨by rw [ih1, hids], ih2⟩

/-- **C4, counterexample.**  With `maxCount = 2` and the operation
sequence insert 1, insert 2, update 1, insert 3: the window ends as
`[2, 3]`, but the claim's "the `N` most-recently-inserted-or-updated
ids" predicts `[1, 3]` (id 1 was touched after id 2) — in-place updates
do not refresh recency, eviction is by insertion age only. -/
theorem messageWindow_touched_counterexample :
    (runWindow (fun _ => 0) 0 exOpsC4 2).map (fun m => m.Message.ID)
        = [2, 3] ∧
    specWindowIdsTouched (exOpsC4.map Message.ID) 2 = [1, 3] ∧
    ([2, 3] : List Int) ≠ [1, 3] :=
  ⟨by decide, by decide, by decide⟩

/-- Witness for `messageWindow_most_recent_inserted` at the C4 inputs. -/
theorem messageWindow_most_recent_inserted_witness :
    ((0 : Int) ≤ 2 ∨ (2 : Int) = -1) ∧
    ((runWindow (fun _ => 0) 0 exOpsC4 2).map (fun m => m.Message.ID)
        = specWindowIds (exOpsC4.map Message.ID) 2 ∧
      ((0 : Int) ≤ 2 →
        ((runWindow (fun _ => 0) 0 exOpsC4 2).length : Int) ≤ 2)) :=
  ⟨Or.inl (by decide),
   messageWindow_most_recent_inserted (fun _ => 0) 0 exOpsC4 2
     (Or.inl (by decide))⟩

end DstateB

/-- **C6, counterexample.**  `MemberAddUpdate` patching an existing
member record: the guarded fields (joined-at "J0", roles) survive the
empty incoming values, but the stored nickname "nicky" is overwritten by
the incoming *empty* nick — an empty string in the update does null out
this stored field, contrary to the claim's "no stored field can be
nulled out by a partial update". -/
theorem patch_clears_nick_counterexample :
    mapGet (DstateA.exGuildC6.MemberAddUpdate DstateA.exIncomingC6).Members "m"
        = some { Member := some DstateA.exPatchedC6, Presence := none } ∧
    DstateA.exOldMemberC6.Nick = "nicky" ∧
    DstateA.exIncomingC6.Nick = "" ∧
    DstateA.exPatchedC6.Nick = "" := by
  refine ⟨by decide, by decide, by decide, by decide⟩

/-- **C6, amended.**  The patch operations overwrite only
present/non-empty fields for their *guarded* fields — member joined-at
and roles; every patched message field (content, edited-timestamp,
mentions, embeds, attachments, timestamp, author); presence status —
while the member's nick and user, and the presence's game, are
overwritten unconditionally by every update ("Seems to always be
provided" / "this had to always be provided?"). -/
theorem patch_empty_fields_amended :
    (∀ (g : DstateA.GuildState) (existing : DstateA.MemberState)
        (old incoming : DstateA.Member),
      mapGet g.Members incoming.User.ID = some existing →
      existing.Member = some old →
      ∃ ms', mapGet (g.MemberAddUpdate incoming).Members incoming.User.ID
          = some ms' ∧
        ∃ new, ms'.Member = some new ∧
          (incoming.JoinedAt = "" → new.JoinedAt = old.JoinedAt) ∧
          (incoming.Roles = none → new.Roles = old.Roles) ∧
          new.Nick = incoming.Nick ∧ new.User = incoming.User) ∧
    (∀ (parse : String → Int) (m : DstateB.MessageState)
        (msg : DstateB.Message),
      (msg.Content = "" →
        (m.Update parse msg).Message.Content = m.Message.Content) ∧
      (msg.EditedTimestamp = "" →
        (m.Update parse msg).Message.EditedTimestamp
          = m.Message.EditedTimestamp) ∧
      (msg.Mentions = none →
        (m.Update parse msg).Message.Mentions = m.Message.Mentions) ∧
      (msg.Embeds = none →
        (m.Update parse msg).Message.Embeds = m.Message.Embeds) ∧
      (msg.Attachments = none →
        (m.Update parse msg).Message.Attachments = m.Message.Attachments) ∧
      (msg.Timestamp = "" →
        (m.Update parse msg).Message.Timestamp = m.Message.Timestamp) ∧
      (msg.Author = none →
        (m.Update parse msg).Message.Author = m.Message.Author)) ∧
    (∀ (g : DstateA.GuildState) (existing : DstateA.MemberState)
        (oldP incoming : DstateA.Presence),
      mapGet g.Members incoming.User.ID = some existing →
      existing.Presence = some oldP →
      ∃ ms', mapGet (g.PresenceAddUpdate incoming).1.Members incoming.User.ID
          = some ms' ∧
        ∃ newP, ms'.Presence = some newP ∧
          (incoming.Status = "" → newP.Status = oldP.Status) ∧
          newP.Game = incoming.Game) := by
  refine ⟨?_, ?_, ?_⟩
  · intro g existing old incoming hget hmem
    obtain ⟨mm, pp⟩ := existing
    cases hmem
    unfold DstateA.GuildState.MemberAddUpdate
    rw [hget]
    dsimp only
    refine ⟨_, AList.mapGet_mapInsert_self _ _ _, _, rfl, ?_, ?_, rfl, rfl⟩
    · intro h
      simp [h]
    · intro h
      simp [h]
  · intro parse m msg
    refine ⟨?_, ?_, ?_, ?_, ?_, ?_, ?_⟩ <;> intro h <;>
      simp [DstateB.MessageState.Update, DstateB.MessageState.ParseTimes, h]
  · intro g existing oldP incoming hget hpre
    obtain ⟨mm, pp⟩ := existing
    cases hpre
    unfold DstateA.GuildState.PresenceAddUpdate
    rw [hget]
    dsimp only
    refine ⟨_, AList.mapGet_mapInsert_self _ _ _, _, rfl, ?_, rfl⟩
    intro h
    simp [h]

/-- Witness for `patch_empty_fields_amended` at the C6 inputs. -/
theorem patch_empty_fields_amended_witness :
    (∃ ms', mapGet (DstateA.exGuildC6.MemberAddUpdate
        DstateA.exIncomingC6).Members "m" = some ms' ∧
      ∃ new, ms'.Member = some new ∧
        (DstateA.exIncomingC6.JoinedAt = "" →
          new.JoinedAt = DstateA.exOldMemberC6.JoinedAt) ∧
        (DstateA.exIncomingC6.Roles = none →
          new.Roles = DstateA.exOldMemberC6.Roles) ∧
        new.Nick = DstateA.exIncomingC6.Nick ∧
        new.User = DstateA.exIncomingC6.User) ∧
    ((DstateB.exMsgB 1).Content = "" →
      ((DstateB.defaultMessageState.Update (fun _ => 0)
        (DstateB.exMsgB 1)).Message.Content
          = DstateB.defaultMessageState.Message.Content)) :=
  ⟨patch_empty_fields_amended.1 DstateA.exGuildC6
      ⟨some DstateA.exOldMemberC6, none⟩ DstateA.exOldMemberC6
      DstateA.exIncomingC6 (by decide) (by decide),
   (patch_empty_fields_amended.2.1 (fun _ => 0)
      DstateB.defaultMessageState (DstateB.exMsgB 1)).1⟩

end Dutil
